import Mathlib

/-!
# Session controller of `fac` (main.go)

A shallow embedding of `main.go`: the package-level variables become one
record that is threaded through the functions, every call that leaves the
file (terminal UI, evaluator, editor, file system) is recorded in a log, and
the answers of the outside world are inputs of the model.

Go `int` is 64 bit. The counter `consecutiveErrCnt` only moves by `+1` per
user command or editor session, so it is modelled as a natural number; the
code's `++` wraps at `2 ^ 63 - 1`, and a statement that describes a step by
the value of the counter before it carries the bound `< 2 ^ 63 - 1`.
The cursor `cur` is only read in `main.go`; it is an integer, and indexing
`conflicts[cur]` outside the slice is a runtime crash.
-/

namespace Fac

/-! ## Data -/

/-- Error values. `ErrUnknownCmd` and `ErrOpenEditor` are the two sentinel
values of package main, `ErrQuit` is `gocui.ErrQuit`, and `other` stands for
every error value that is none of the three. Go compares error values by
identity, which is constructor equality here. -/
inductive Err where
  | ErrUnknownCmd
  | ErrOpenEditor
  | ErrQuit
  | other (msg : String)
  deriving DecidableEq, Repr

/-- One conflict region of a file (type `conflict.Conflict`), reduced to its
lines. -/
structure Conflict where
  lines : List String
  deriving DecidableEq, Repr

/-- A file returned by `conflict.Find` with its conflicts in order. -/
structure File where
  Name : String
  Conflicts : List Conflict
  deriving DecidableEq, Repr

/-- A pointer `&files[file].Conflicts[idx]`, the element type of the slice
`conflicts`. -/
structure Handle where
  file : Nat
  idx : Nat
  deriving DecidableEq, Repr

/-- The key binding table returned by `key.LoadSettings`. -/
structure Binding where
  keys : List (String × String)
  deriving DecidableEq, Repr

/-- What `fmt.Println` is given: the red line of `die` for an error, or the
green line printed when there is nothing to resolve. -/
inductive Msg where
  | red (err : Err)
  | noConflicts
  deriving DecidableEq, Repr

/-- Calls that leave `main.go`, in the order they are made, together with the
value each run of `runUI` returned. -/
inductive Event where
  | clearInput
  | evaluate (c : Handle) (input : String)
  | select (c : Handle) (force : Bool)
  | printPrompt
  | newGui (res : Option Err)
  | guiClose
  | runUIReturned (res : Option Err)
  | editorOpen (c : Handle)
  | update (c : Handle) (newLines : List String)
  | println (m : Msg)
  | writeChanges (i : Nat)
  | printSummary (cs : List Handle)
  deriving DecidableEq, Repr

/-- The package-level variables of `main.go` (`conflicts`, `binding`, `cur`,
`consecutiveErrCnt`), the log of outside calls, and the indices of the files
whose write-back succeeded. -/
structure State where
  conflicts : List Handle
  binding : Binding
  cur : Int
  consecutiveErrCnt : Nat
  trace : List Event
  written : List Nat
  deriving DecidableEq, Repr

/-- The values the variables are declared with. -/
def State.init : State :=
  { conflicts := [], binding := ⟨[]⟩, cur := 0, consecutiveErrCnt := 0,
    trace := [], written := [] }

/-- Record one outside call. -/
def State.emit (s : State) (e : Event) : State :=
  { s with trace := s.trace ++ [e] }

/-- The slice access `xs[i]` with a Go `int` index: `none` is the runtime
crash for an index out of range. -/
def index {α : Type} (xs : List α) (i : Int) : Option α :=
  if 0 ≤ i then xs.get? i.toNat else none

/-- The expression `conflicts[cur]`. -/
def State.active (s : State) : Option Handle :=
  index s.conflicts s.cur

/-- Result of a function of `main.go` that returns a value: it returns, or
the process crashes on a slice index, or the recorded answers of the outside
world are used up and the program waits for the next one. -/
inductive Res (α : Type) where
  | ok (a : α) (s : State)
  | panic (s : State)
  | blocked (s : State)
  deriving DecidableEq, Repr

/-- The state a result carries. -/
def Res.state {α : Type} : Res α → State
  | .ok _ s => s
  | .panic s => s
  | .blocked s => s

/-- The call `strings.TrimSuffix(s, "\n")`: one trailing line feed is
removed when there is one. -/
def trimSuffixNewline (s : String) : String :=
  if s.data.getLast? = some (Char.ofNat 10) then ⟨s.data.dropLast⟩ else s

/-! ## The outside world -/

/-- Modelled from the spec: Evaluate, the command evaluator of package main,
is not in `main.go`. It answers with no error, with one of the sentinels or
with another error, and since the cursor advances only through the
collaborators, it leaves `cur` at the value given here. -/
structure EvalReply where
  err : Option Err
  cur : Int
  deriving DecidableEq, Repr

/-- What `g.MainLoop` of gocui delivers during one run of the UI: the Enter
key (bound to `parseInput`) with the text of the input view and the answer of
the evaluator, Ctrl+C (bound to `quit`), the queued function of `globalQuit`,
or an error of gocui itself. -/
inductive GuiEvent where
  | enter (buffer : String) (reply : EvalReply)
  | ctrlC
  | globalQuit
  | failure (e : Err)
  deriving DecidableEq, Repr

/-- Everything the outside world answers during one pass of the loop of
`mainLoop`: the results of `gocui.NewGui` and of the two `SetKeybinding`
calls, the events of the UI run, and, if they are asked for, the results of
`editor.Open` and of `Update`. -/
structure Round where
  newGui : Option Err
  bindCtrlC : Option Err
  bindEnter : Option Err
  events : List GuiEvent
  editorOpen : List String × Option Err
  update : Option Err
  deriving DecidableEq, Repr

/-- The answers of the outside world for one run of the program. -/
structure Env where
  loadSettings : Binding × Option Err
  getwd : String × Option Err
  find : String → List File × Option Err
  rounds : List Round
  writeChanges : Nat → Option Err

/-! ## The functions of main.go -/

/-- Modelled from the spec: Select, the presentation layer of package main,
is not in `main.go`. It marks the conflict it is given as the active one for
display; it is recorded with its force flag. -/
def Select (c : Handle) (force : Bool) (s : State) : State :=
  s.emit (.select c force)

/-- Modelled from the spec: PrintPrompt of the presentation layer is not in
`main.go`. It redisplays the prompt. -/
def PrintPrompt (s : State) : State :=
  s.emit .printPrompt

/-- The handler `quit` of Ctrl+C. -/
def quit : Option Err := some .ErrQuit

/-- The function `globalQuit` queues with `g.Update`. -/
def globalQuit : Option Err := some .ErrQuit

/-- The handler `parseInput` of the Enter key (main.go 38-58). `v.Clear()` and
`v.SetCursor(0, 0)` are logged as one event; the call of Evaluate is logged
with the conflict and the trimmed text, and leaves `cur` where the evaluator
put it. -/
def parseInput (buffer : String) (reply : EvalReply) (s : State) : Res (Option Err) :=
  let input := trimSuffixNewline buffer
  let s := s.emit .clearInput
  match s.active with
  | none => .panic s
  | some c =>
    let s := { s.emit (.evaluate c input) with cur := reply.cur }
    match reply.err with
    | some err =>
      if err = .ErrUnknownCmd then
        let s := { s with consecutiveErrCnt := s.consecutiveErrCnt + 1 }
        if s.consecutiveErrCnt > 3 then
          match s.active with
          | none => .panic s
          | some c2 => .ok none (PrintPrompt (Select c2 true s))
        else
          .ok none (PrintPrompt s)
      else
        .ok (some err) s
    | none =>
      .ok none (PrintPrompt { s with consecutiveErrCnt := 0 })

/-- The inner loop of `findConflicts`: `j` runs over the `n` conflicts of
file `i`. -/
def appendFile (i n : Nat) (reg : List Handle) : List Handle :=
  (List.range n).foldl (fun acc j => acc ++ [Handle.mk i j]) reg

/-- The outer loop of `findConflicts`, from file number `i` on. -/
def appendFiles : Nat → List File → List Handle → List Handle
  | _, [], reg => reg
  | i, f :: fs, reg => appendFiles (i + 1) fs (appendFile i f.Conflicts.length reg)

/-- The function `findConflicts` (main.go 63-81): the files, the error, and
the state with the registry extended. -/
def findConflicts (env : Env) (s : State) : List File × Option Err × State :=
  match env.getwd with
  | (_, some err) => ([], some err, s)
  | (cwd, none) =>
    match env.find cwd with
    | (files, some err) => (files, some err, s)
    | (files, none) => (files, none, { s with conflicts := appendFiles 0 files s.conflicts })

/-- The event loop `g.MainLoop` of gocui: it calls the handler of each event
and returns the first error a handler returns. -/
def guiMainLoop : List GuiEvent → State → Res (Option Err)
  | [], s => .blocked s
  | .enter buffer reply :: evs, s =>
    match parseInput buffer reply s with
    | .ok none s1 => guiMainLoop evs s1
    | r => r
  | .ctrlC :: _, s => .ok quit s
  | .globalQuit :: _, s => .ok globalQuit s
  | .failure e :: _, s => .ok (some e) s

/-- The function `runUI` (main.go 84-108). The deferred `g.Close()` runs on
every way out once the Gui exists. `SetManagerFunc(layout)` and `g.Cursor =
true` configure the Gui and are not logged. The value returned is logged. -/
def runUI (r : Round) (s : State) : Res (Option Err) :=
  let s := s.emit (.newGui r.newGui)
  match r.newGui with
  | some err => .ok (some err) (s.emit (.runUIReturned (some err)))
  | none =>
    match r.bindCtrlC with
    | some err => .ok (some err) ((s.emit .guiClose).emit (.runUIReturned (some err)))
    | none =>
      match r.bindEnter with
      | some err => .ok (some err) ((s.emit .guiClose).emit (.runUIReturned (some err)))
      | none =>
        match s.active with
        | none => .panic (s.emit .guiClose)
        | some c =>
          match guiMainLoop r.events (Select c false s) with
          | .ok res s1 => .ok res ((s1.emit .guiClose).emit (.runUIReturned res))
          | .panic s1 => .panic (s1.emit .guiClose)
          | .blocked s1 => .blocked s1

/-- The function `mainLoop` (main.go 111-131), one `Round` per pass of the
loop. -/
def mainLoop : List Round → State → Res (Option Err)
  | [], s => .blocked s
  | r :: rs, s =>
    match runUI r s with
    | .ok (some err) s1 =>
      if err = .ErrOpenEditor then
        match s1.active with
        | none => .panic s1
        | some c =>
          let s2 := s1.emit (.editorOpen c)
          match r.editorOpen with
          | (_, some err) => .ok (some err) s2
          | (newLines, none) =>
            let s3 := s2.emit (.update c newLines)
            match r.update with
            | some _ => mainLoop rs { s3 with consecutiveErrCnt := s3.consecutiveErrCnt + 1 }
            | none => mainLoop rs s3
      else if err = .ErrQuit then
        .ok none s1
      else
        mainLoop rs s1
    | .ok none s1 => mainLoop rs s1
    | .panic s1 => .panic s1
    | .blocked s1 => .blocked s1

/-- How the process ends: `os.Exit` or the return of `main` with a status, a
crash, or waiting for an answer the environment does not have. -/
inductive Proc where
  | exited (code : Nat) (s : State)
  | panicked (s : State)
  | blocked (s : State)
  deriving Repr

/-- The state a process ends in. -/
def Proc.state : Proc → State
  | .exited _ s => s
  | .panicked s => s
  | .blocked s => s

/-- The function `die` (main.go 133-136). -/
def die (err : Err) (s : State) : Proc :=
  .exited 1 (s.emit (.println (.red err)))

/-- Modelled from the spec: WriteChanges of a File is not in `main.go`. It
persists the resolved content of the file, or fails. -/
def WriteChanges (env : Env) (i : Nat) (s : State) : Option Err × State :=
  match env.writeChanges i with
  | some err => (some err, s.emit (.writeChanges i))
  | none => (none, { s.emit (.writeChanges i) with written := s.written ++ [i] })

/-- The loop over `files` at the end of `main` (main.go 160-164), from file
number `i` on: the first error stops it. -/
def writeLoop (env : Env) : Nat → List File → State → Option Err × State
  | _, [], s => (none, s)
  | i, _ :: fs, s =>
    match WriteChanges env i s with
    | (some err, s1) => (some err, s1)
    | (none, s1) => writeLoop env (i + 1) fs s1

/-- Modelled from the spec: PrintSummary of the presentation layer is not in
`main.go`. It prints the summary of the resolutions. -/
def PrintSummary (cs : List Handle) (s : State) : State :=
  s.emit (.printSummary cs)

/-- The function `main` (main.go 138-167). -/
def main (env : Env) : Proc :=
  let s := { State.init with binding := env.loadSettings.1 }
  match env.loadSettings.2 with
  | some err => die err s
  | none =>
    match findConflicts env s with
    | (_, some err, s1) => die err s1
    | (files, none, s1) =>
      if s1.conflicts.length = 0 then
        .exited 0 (s1.emit (.println .noConflicts))
      else
        match mainLoop env.rounds s1 with
        | .ok (some err) s2 => die err s2
        | .ok none s2 =>
          match writeLoop env 0 files s2 with
          | (some err, s3) => die err s3
          | (none, s3) => .exited 0 (PrintSummary s3.conflicts s3)
        | .panic s2 => .panicked s2
        | .blocked s2 => .blocked s2

/-! ## Auxiliary definitions for the statements -/

/-- The events `parseInput` logs before it looks at the answer of the
evaluator. -/
def evalEvents (c : Handle) (buffer : String) : List Event :=
  [.clearInput, .evaluate c (trimSuffixNewline buffer)]

/-- A selection made with the force flag set. -/
def isForcedSelect : Event → Bool
  | .select _ true => true
  | _ => false

/-- The Enter events of a list of commands, each with the text typed and the
answer of the evaluator. -/
def enters (cmds : List (String × EvalReply)) : List GuiEvent :=
  cmds.map fun x => .enter x.1 x.2

/-- A registry with one conflict, the first of the first file, and the
variables otherwise as declared. -/
def oneConflict : State :=
  { State.init with conflicts := [⟨0, 0⟩] }

/-- The evaluator answers `ErrUnknownCmd` and leaves the cursor at 0. -/
def unknownReply : EvalReply := ⟨some .ErrUnknownCmd, 0⟩

/-- The evaluator answers without error and leaves the cursor at 0. -/
def appliedReply : EvalReply := ⟨none, 0⟩

/-- The evaluator answers `ErrOpenEditor` and leaves the cursor at 0. -/
def editorReply : EvalReply := ⟨some .ErrOpenEditor, 0⟩

/-- The calls made while the session loop runs: everything but the printing
of lines, the write-back of files and the summary. -/
def isSessionEvent : Event → Bool
  | .println _ => false
  | .writeChanges _ => false
  | .printSummary _ => false
  | _ => true

/-- State `s2` comes after `s1` in a session: the log has grown by session
events only, and the registry and the written files are the same. -/
def Extends (s1 s2 : State) : Prop :=
  (∃ t, s2.trace = s1.trace ++ t ∧ ∀ e ∈ t, isSessionEvent e = true) ∧
    s2.conflicts = s1.conflicts ∧ s2.written = s1.written ∧ s2.binding = s1.binding

/-- The log of `s2` starts with the log of `s1` followed by event `e`. -/
def StartsWith (s1 : State) (e : Event) (s2 : State) : Prop :=
  ∃ t, s2.trace = s1.trace ++ e :: t

/-- A pass in which the Gui is created and both keys are bound, with the given
events; the editor, if asked, returns one line and the update succeeds. -/
def okRound (events : List GuiEvent) : Round :=
  { newGui := none, bindCtrlC := none, bindEnter := none, events := events,
    editorOpen := (["resolved"], none), update := none }

/-- A pass in which `gocui.NewGui` fails. -/
def noGuiRound : Round :=
  { okRound [] with newGui := some (.other "no terminal") }

/-- A pass in which the evaluator fails with an error that is no sentinel. -/
def fatalRound : Round :=
  okRound [.enter "x" ⟨some (.other "evaluator failed"), 0⟩]

/-- A pass in which the user presses Ctrl+C. -/
def quitRound : Round :=
  okRound [.ctrlC]

/-- A pass in which the user asks for the editor, the editor returns one line
and the update of the conflict fails. -/
def badEditRound : Round :=
  { okRound [.enter "e" editorReply] with update := some (.other "cannot parse") }

/-- One conflict and three unknown commands counted. -/
def threeErrors : State :=
  { oneConflict with consecutiveErrCnt := 3 }

/-- The pointers to the `n` conflicts of file number `i`, in order. -/
def fileHandles (i n : Nat) : List Handle :=
  (List.range n).map (Handle.mk i)

/-- The pointers to the conflicts of the files `fs`, numbered from `i` on:
file after file, and inside a file conflict after conflict. -/
def handlesFrom : Nat → List File → List Handle
  | _, [] => []
  | i, f :: fs => fileHandles i f.Conflicts.length ++ handlesFrom (i + 1) fs

/-- The conflict a pointer points to. -/
def deref (files : List File) (h : Handle) : Option Conflict :=
  (files.get? h.file).bind fun f => f.Conflicts.get? h.idx

/-- The number of conflicts in the files before file number `i`. -/
def conflictsBefore (files : List File) (i : Nat) : Nat :=
  ((files.take i).map fun f => f.Conflicts.length).sum

/-- The state `main` starts the search for conflicts in: the variables as
declared, with the loaded key bindings. -/
def boot (env : Env) : State :=
  { State.init with binding := env.loadSettings.1 }

/-- The calls of the end of `main`: the write-back of a file and the
summary. -/
def isFinalizerEvent : Event → Bool
  | .writeChanges _ => true
  | .printSummary _ => true
  | _ => false

/-- Two files, the first with two conflicts and the second with one. -/
def twoFiles : List File :=
  [⟨"a.txt", [⟨["x"]⟩, ⟨["y"]⟩]⟩, ⟨"b.txt", [⟨["z"]⟩]⟩]

/-- An environment in which the settings load and the search returns `files`. -/
def demoEnv (files : List File) (rounds : List Round) (write : Nat → Option Err) : Env :=
  { loadSettings := (⟨[]⟩, none), getwd := ("/repo", none), find := fun _ => (files, none),
    rounds := rounds, writeChanges := write }

/-- The state after the search found the conflicts of `twoFiles`. -/
def demoFound : State :=
  { State.init with conflicts := [⟨0, 0⟩, ⟨0, 1⟩, ⟨1, 0⟩] }

/-- The state after one UI run on `demoFound` that ends with Ctrl+C. -/
def demoQuit : State :=
  { demoFound with trace :=
      [.newGui none, .select ⟨0, 0⟩ false, .guiClose, .runUIReturned (some .ErrQuit)] }

/-- The write-back of the second file fails. -/
def secondWriteFails (i : Nat) : Option Err :=
  if i = 1 then some (.other "disk full") else none

/-- The largest value of a Go `int`: at this value `++` wraps. -/
def maxInt : Nat := 2 ^ 63 - 1

/-- State `s2` comes after `s1` without a forced selection: the log has grown
by events none of which is a selection with the force flag. -/
def Unforced (s1 s2 : State) : Prop :=
  ∃ t, s2.trace = s1.trace ++ t ∧ ∀ e ∈ t, isForcedSelect e = false

/-- No Enter event of the list is answered with `ErrUnknownCmd`. -/
def noUnknown (evs : List GuiEvent) : Prop :=
  ∀ b rep, GuiEvent.enter b rep ∈ evs → rep.err ≠ some .ErrUnknownCmd

/-! ## Basic facts -/

@[simp]
theorem emit_conflicts (s : State) (e : Event) : (s.emit e).conflicts = s.conflicts := rfl

@[simp]
theorem emit_cur (s : State) (e : Event) : (s.emit e).cur = s.cur := rfl

@[simp]
theorem emit_cnt (s : State) (e : Event) :
    (s.emit e).consecutiveErrCnt = s.consecutiveErrCnt := rfl

@[simp]
theorem emit_written (s : State) (e : Event) : (s.emit e).written = s.written := rfl

@[simp]
theorem emit_binding (s : State) (e : Event) : (s.emit e).binding = s.binding := rfl

@[simp]
theorem emit_trace (s : State) (e : Event) : (s.emit e).trace = s.trace ++ [e] := rfl

@[simp]
theorem emit_active (s : State) (e : Event) : (s.emit e).active = s.active := rfl

/-- The handler on an answer without error. -/
theorem parseInput_applied (buffer : String) (reply : EvalReply) (s : State) (c : Handle)
    (hc : s.active = some c) (hr : reply.err = none) :
    parseInput buffer reply s = .ok none
      { s with cur := reply.cur, consecutiveErrCnt := 0,
               trace := s.trace ++ (evalEvents c buffer ++ [.printPrompt]) } := by
  have hc1 : index s.conflicts s.cur = some c := hc
  simp [parseInput, State.active, hc1, hr, PrintPrompt, State.emit, evalEvents]

/-- The handler on `ErrUnknownCmd` while the counter stays at 3 or less. -/
theorem parseInput_unknown_low (buffer : String) (reply : EvalReply) (s : State) (c : Handle)
    (hc : s.active = some c) (hr : reply.err = some .ErrUnknownCmd)
    (hn : s.consecutiveErrCnt + 1 ≤ 3) :
    parseInput buffer reply s = .ok none
      { s with cur := reply.cur, consecutiveErrCnt := s.consecutiveErrCnt + 1,
               trace := s.trace ++ (evalEvents c buffer ++ [.printPrompt]) } := by
  have h3 : ¬ (3 < s.consecutiveErrCnt + 1) := by omega
  have hc1 : index s.conflicts s.cur = some c := hc
  simp [parseInput, State.active, hc1, hr, PrintPrompt, State.emit, evalEvents, h3]

/-- The handler on `ErrUnknownCmd` when the counter passes 3. -/
theorem parseInput_unknown_high (buffer : String) (reply : EvalReply) (s : State)
    (c c2 : Handle) (hc : s.active = some c) (hr : reply.err = some .ErrUnknownCmd)
    (hn : 3 < s.consecutiveErrCnt + 1) (hc2 : index s.conflicts reply.cur = some c2) :
    parseInput buffer reply s = .ok none
      { s with cur := reply.cur, consecutiveErrCnt := s.consecutiveErrCnt + 1,
               trace := s.trace ++ (evalEvents c buffer ++ [.select c2 true, .printPrompt]) } := by
  have hc1 : index s.conflicts s.cur = some c := hc
  simp [parseInput, hc1, hr, PrintPrompt, Select, State.emit, State.active, evalEvents, hn, hc2]

/-- The handler on every other error. -/
theorem parseInput_error (buffer : String) (reply : EvalReply) (s : State) (c : Handle)
    (e : Err) (hc : s.active = some c) (hr : reply.err = some e) (he : e ≠ .ErrUnknownCmd) :
    parseInput buffer reply s = .ok (some e)
      { s with cur := reply.cur, trace := s.trace ++ evalEvents c buffer } := by
  have hc1 : index s.conflicts s.cur = some c := hc
  simp [parseInput, State.active, hc1, hr, State.emit, evalEvents, he]

/-- One command whose evaluation gives no error or `ErrUnknownCmd`. -/
theorem parseInput_step (buffer : String) (reply : EvalReply) (s : State) (c c2 : Handle)
    (hc : s.active = some c) (hc2 : index s.conflicts reply.cur = some c2)
    (hr : reply.err = none ∨ reply.err = some .ErrUnknownCmd) :
    ∃ s' evs, parseInput buffer reply s = .ok none s' ∧ s'.conflicts = s.conflicts ∧
      s'.cur = reply.cur ∧ s'.trace = s.trace ++ evs ∧
      (reply.err = none → s'.consecutiveErrCnt = 0) ∧
      (reply.err = some .ErrUnknownCmd → s'.consecutiveErrCnt = s.consecutiveErrCnt + 1) ∧
      (3 < s'.consecutiveErrCnt → Event.select c2 true ∈ evs) ∧
      (s'.consecutiveErrCnt ≤ 3 → ∀ e ∈ evs, isForcedSelect e = false) := by
  rcases hr with hr | hr
  · refine ⟨_, _, parseInput_applied buffer reply s c hc hr, rfl, rfl, rfl, ?_, ?_, ?_, ?_⟩
    · intro _; rfl
    · intro h; rw [hr] at h; cases h
    · intro h; simp at h
    · intro _ e he
      simp [evalEvents] at he
      rcases he with he | he | he <;> subst he <;> rfl
  · by_cases hn : 3 < s.consecutiveErrCnt + 1
    · refine ⟨_, _, parseInput_unknown_high buffer reply s c c2 hc hr hn hc2, rfl, rfl, rfl,
        ?_, ?_, ?_, ?_⟩
      · intro h; rw [hr] at h; cases h
      · intro _; rfl
      · intro _; simp
      · intro h; simp at h; omega
    · refine ⟨_, _, parseInput_unknown_low buffer reply s c hc hr (by omega), rfl, rfl, rfl,
        ?_, ?_, ?_, ?_⟩
      · intro h; rw [hr] at h; cases h
      · intro _; rfl
      · intro h; simp at h; omega
      · intro _ e he
        simp [evalEvents] at he
        rcases he with he | he | he <;> subst he <;> rfl

/-- A run of Enter events whose evaluations give no error or `ErrUnknownCmd`
is handled to the end: the loop then waits for the next event, with the
registry as it was and the cursor on a conflict. -/
theorem guiMainLoop_enters (cmds : List (String × EvalReply)) :
    ∀ (s0 : State), (s0.active).isSome →
      (∀ x ∈ cmds, x.2.err = none ∨ x.2.err = some .ErrUnknownCmd) →
      (∀ x ∈ cmds, (index s0.conflicts x.2.cur).isSome) →
      ∃ s, guiMainLoop (enters cmds) s0 = .blocked s ∧ s.conflicts = s0.conflicts ∧
        (s.active).isSome := by
  induction cmds with
  | nil => intro s0 h0 _ _; exact ⟨s0, rfl, rfl, h0⟩
  | cons x xs ih =>
    intro s0 h0 hout hcur
    obtain ⟨c, hc⟩ := Option.isSome_iff_exists.mp h0
    obtain ⟨c2, hc2⟩ := Option.isSome_iff_exists.mp (hcur x (List.mem_cons_self _ _))
    obtain ⟨s1, evs, hp, hconf, hcur1, -⟩ :=
      parseInput_step x.1 x.2 s0 c c2 hc hc2 (hout x (List.mem_cons_self _ _))
    have hact : (s1.active).isSome := by
      simp [State.active, hconf, hcur1, hc2]
    obtain ⟨s, hs, hsc, hsa⟩ := ih s1 hact
      (fun y hy => hout y (List.mem_cons_of_mem _ hy))
      (fun y hy => by rw [hconf]; exact hcur y (List.mem_cons_of_mem _ hy))
    refine ⟨s, ?_, by rw [hsc, hconf], hsa⟩
    simp only [enters, List.map_cons, guiMainLoop, hp]
    exact hs

/-! ## The log of a session -/

theorem Extends.refl (s : State) : Extends s s :=
  ⟨⟨[], by simp, by simp⟩, rfl, rfl, rfl⟩

theorem Extends.trans {s1 s2 s3 : State} (h12 : Extends s1 s2) (h23 : Extends s2 s3) :
    Extends s1 s3 := by
  obtain ⟨⟨t1, ht1, hs1⟩, hc1, hw1, hb1⟩ := h12
  obtain ⟨⟨t2, ht2, hs2⟩, hc2, hw2, hb2⟩ := h23
  refine ⟨⟨t1 ++ t2, by rw [ht2, ht1, List.append_assoc], ?_⟩, by rw [hc2, hc1],
    by rw [hw2, hw1], by rw [hb2, hb1]⟩
  intro e he
  rcases List.mem_append.mp he with h | h
  · exact hs1 e h
  · exact hs2 e h

/-- A state that differs from `s` by session events appended to the log, by
the cursor and by the counter comes after `s`. -/
theorem Extends.of_fields (s s2 : State) (t : List Event)
    (ht : s2.trace = s.trace ++ t) (hs : ∀ e ∈ t, isSessionEvent e = true)
    (hc : s2.conflicts = s.conflicts) (hw : s2.written = s.written)
    (hb : s2.binding = s.binding) : Extends s s2 :=
  ⟨⟨t, ht, hs⟩, hc, hw, hb⟩

theorem Extends.emit (s : State) (e : Event) (he : isSessionEvent e = true) :
    Extends s (s.emit e) :=
  Extends.of_fields s _ [e] rfl (by simpa using he) rfl rfl rfl

/-- The handler only appends session events. -/
theorem parseInput_extends (buffer : String) (reply : EvalReply) (s : State) :
    Extends s (parseInput buffer reply s).state := by
  unfold parseInput
  simp only [emit_active]
  rcases hact : s.active with _ | c
  · exact Extends.emit s _ rfl
  · simp only []
    rcases hre : reply.err with _ | e
    · exact Extends.of_fields s _ (evalEvents c buffer ++ [.printPrompt])
        (by simp [Res.state, PrintPrompt, State.emit, evalEvents])
        (by simp [evalEvents, isSessionEvent]) rfl rfl rfl
    · simp only []
      split
      · split
        · split
          · exact Extends.of_fields s _ (evalEvents c buffer)
              (by simp [Res.state, State.emit, evalEvents])
              (by simp [evalEvents, isSessionEvent]) rfl rfl rfl
          · rename_i c2 _
            exact Extends.of_fields s _ (evalEvents c buffer ++ [.select c2 true, .printPrompt])
              (by simp [Res.state, PrintPrompt, Select, State.emit, evalEvents])
              (by simp [evalEvents, isSessionEvent]) rfl rfl rfl
        · exact Extends.of_fields s _ (evalEvents c buffer ++ [.printPrompt])
            (by simp [Res.state, PrintPrompt, State.emit, evalEvents])
            (by simp [evalEvents, isSessionEvent]) rfl rfl rfl
      · exact Extends.of_fields s _ (evalEvents c buffer)
          (by simp [Res.state, State.emit, evalEvents])
          (by simp [evalEvents, isSessionEvent]) rfl rfl rfl

/-- The event loop only appends session events. -/
theorem guiMainLoop_extends (evs : List GuiEvent) :
    ∀ s : State, Extends s (guiMainLoop evs s).state := by
  induction evs with
  | nil => intro s; exact Extends.refl s
  | cons ev evs ih =>
    intro s
    cases ev with
    | enter buffer reply =>
      have hp := parseInput_extends buffer reply s
      simp only [guiMainLoop]
      rcases hres : parseInput buffer reply s with ⟨_ | e, s1⟩ | s1 | s1
      · rw [hres] at hp
        exact Extends.trans hp (ih s1)
      · rw [hres] at hp; exact hp
      · rw [hres] at hp; exact hp
      · rw [hres] at hp; exact hp
    | ctrlC => exact Extends.refl s
    | globalQuit => exact Extends.refl s
    | failure e => exact Extends.refl s

theorem Extends.step {s1 s2 : State} (h : Extends s1 s2) (e : Event)
    (he : isSessionEvent e = true) : Extends s1 (s2.emit e) :=
  Extends.trans h (Extends.emit s2 e he)

theorem StartsWith.of_extends {s1 s2 s3 : State} {e : Event} (h : StartsWith s1 e s2)
    (h23 : Extends s2 s3) : StartsWith s1 e s3 := by
  obtain ⟨t, ht⟩ := h
  obtain ⟨⟨t2, ht2, -⟩, -⟩ := h23
  exact ⟨t ++ t2, by rw [ht2, ht]; simp⟩

/-- A UI run calls `gocui.NewGui` first and then only appends session
events. -/
theorem runUI_after_newGui (r : Round) (s : State) :
    Extends (s.emit (.newGui r.newGui)) (runUI r s).state := by
  unfold runUI
  simp only [emit_active]
  rcases hg : r.newGui with _ | e
  · simp only []
    rcases r.bindCtrlC with _ | e
    · simp only []
      rcases r.bindEnter with _ | e
      · simp only []
        rcases s.active with _ | c
        · exact (Extends.refl _).step .guiClose rfl
        · simp only []
          have hl := guiMainLoop_extends r.events (Select c false (s.emit (.newGui none)))
          have hsel : Extends (s.emit (.newGui none)) (Select c false (s.emit (.newGui none))) :=
            (Extends.refl _).step (.select c false) rfl
          rcases hres : guiMainLoop r.events (Select c false (s.emit (.newGui none)))
            with ⟨res, s1⟩ | s1 | s1
          · rw [hres] at hl
            exact ((Extends.trans hsel hl).step .guiClose rfl).step (.runUIReturned res) rfl
          · rw [hres] at hl
            exact (Extends.trans hsel hl).step .guiClose rfl
          · rw [hres] at hl
            exact Extends.trans hsel hl
      · exact ((Extends.refl _).step .guiClose rfl).step (.runUIReturned (some e)) rfl
    · exact ((Extends.refl _).step .guiClose rfl).step (.runUIReturned (some e)) rfl
  · exact (Extends.refl _).step (.runUIReturned (some e)) rfl

/-- A UI run only appends session events. -/
theorem runUI_extends (r : Round) (s : State) : Extends s (runUI r s).state :=
  Extends.trans (Extends.emit s (.newGui r.newGui) rfl) (runUI_after_newGui r s)

/-- The first call of a UI run is `gocui.NewGui`. -/
theorem runUI_head (r : Round) (s : State) :
    StartsWith s (.newGui r.newGui) (runUI r s).state :=
  StartsWith.of_extends ⟨[], rfl⟩ (runUI_after_newGui r s)

/-- When a UI run returns, the last entry of the log is its return value. -/
theorem runUI_last (r : Round) (s s1 : State) (res : Option Err)
    (h : runUI r s = .ok res s1) : s1.trace.getLast? = some (.runUIReturned res) := by
  unfold runUI at h
  simp only [emit_active] at h
  rcases hg : r.newGui with _ | e
  · rw [hg] at h
    simp only [] at h
    rcases hb1 : r.bindCtrlC with _ | e
    · rw [hb1] at h
      simp only [] at h
      rcases hb2 : r.bindEnter with _ | e
      · rw [hb2] at h
        simp only [] at h
        rcases hact : s.active with _ | c
        · rw [hact] at h; cases h
        · rw [hact] at h
          simp only [] at h
          rcases hres : guiMainLoop r.events (Select c false (s.emit (.newGui none)))
            with ⟨res1, s2⟩ | s2 | s2
          · rw [hres] at h
            simp only [Res.ok.injEq] at h
            obtain ⟨h1, h2⟩ := h
            subst h1; subst h2; simp
          · rw [hres] at h; cases h
          · rw [hres] at h; cases h
      · rw [hb2] at h
        simp only [Res.ok.injEq] at h
        obtain ⟨h1, h2⟩ := h
        subst h1; subst h2; simp
    · rw [hb1] at h
      simp only [Res.ok.injEq] at h
      obtain ⟨h1, h2⟩ := h
      subst h1; subst h2; simp
  · rw [hg] at h
    simp only [Res.ok.injEq] at h
    obtain ⟨h1, h2⟩ := h
    subst h1; subst h2; simp

/-! ## One pass of mainLoop -/

/-- The UI run returned `ErrOpenEditor` and the editor returned lines: the
update is applied and the loop goes on, with the counter one higher when the
update failed. -/
theorem mainLoop_editor_update (r : Round) (rs : List Round) (s s1 : State) (c : Handle)
    (newLines : List String) (h : runUI r s = .ok (some .ErrOpenEditor) s1)
    (hc : s1.active = some c) (ho : r.editorOpen = (newLines, none)) :
    mainLoop (r :: rs) s = mainLoop rs
      { s1 with
        consecutiveErrCnt :=
          if r.update.isSome then s1.consecutiveErrCnt + 1 else s1.consecutiveErrCnt,
        trace := s1.trace ++ [.editorOpen c, .update c newLines] } := by
  rw [mainLoop, h]
  simp only [if_true, hc, ho]
  rcases r.update with _ | e <;> simp [State.emit]

/-- The UI run returned `ErrOpenEditor` and `editor.Open` failed: `mainLoop`
returns the error of the editor. -/
theorem mainLoop_editor_fails (r : Round) (rs : List Round) (s s1 : State) (c : Handle)
    (newLines : List String) (e : Err) (h : runUI r s = .ok (some .ErrOpenEditor) s1)
    (hc : s1.active = some c) (ho : r.editorOpen = (newLines, some e)) :
    mainLoop (r :: rs) s = .ok (some e) (s1.emit (.editorOpen c)) := by
  rw [mainLoop, h]
  simp only [if_true, hc, ho]

/-- The UI run returned `gocui.ErrQuit`: `mainLoop` returns nil. -/
theorem mainLoop_quit (r : Round) (rs : List Round) (s s1 : State)
    (h : runUI r s = .ok (some .ErrQuit) s1) : mainLoop (r :: rs) s = .ok none s1 := by
  rw [mainLoop, h]
  simp

/-- The UI run returned an error that is neither `ErrOpenEditor` nor
`gocui.ErrQuit`: the error is dropped and the loop starts the next pass. -/
theorem mainLoop_other (r : Round) (rs : List Round) (s s1 : State) (e : Err)
    (h : runUI r s = .ok (some e) s1) (h1 : e ≠ .ErrOpenEditor) (h2 : e ≠ .ErrQuit) :
    mainLoop (r :: rs) s = mainLoop rs s1 := by
  rw [mainLoop, h]
  simp [h1, h2]

/-- The session loop only appends session events. -/
theorem mainLoop_extends (rounds : List Round) :
    ∀ s : State, Extends s (mainLoop rounds s).state := by
  induction rounds with
  | nil => intro s; exact Extends.refl s
  | cons r rs ih =>
    intro s
    have hr := runUI_extends r s
    rcases hres : runUI r s with ⟨_ | e, s1⟩ | s1 | s1
    · rw [hres] at hr
      rw [mainLoop, hres]
      exact hr.trans (ih s1)
    · rw [hres] at hr
      by_cases h1 : e = .ErrOpenEditor
      · subst h1
        rcases hact : s1.active with _ | c
        · rw [mainLoop, hres]
          simp only [if_true, hact]
          exact hr
        · rcases ho : r.editorOpen with ⟨newLines, _ | e2⟩
          · rw [mainLoop_editor_update r rs s s1 c newLines hres hact ho]
            refine Extends.trans (hr.trans ?_) (ih _)
            exact Extends.of_fields s1 _ [.editorOpen c, .update c newLines] rfl
              (by simp [isSessionEvent]) rfl rfl rfl
          · rw [mainLoop_editor_fails r rs s s1 c newLines e2 hres hact ho]
            exact hr.step (.editorOpen c) rfl
      · by_cases h2 : e = .ErrQuit
        · subst h2
          rw [mainLoop_quit r rs s s1 hres]
          exact hr
        · rw [mainLoop_other r rs s s1 e hres h1 h2]
          exact hr.trans (ih s1)
    · rw [hres] at hr
      rw [mainLoop, hres]
      exact hr
    · rw [hres] at hr
      rw [mainLoop, hres]
      exact hr

/-- When `mainLoop` returns nil, the last entry of the log is the return of a
UI run with `gocui.ErrQuit`. -/
theorem mainLoop_nil_last (rounds : List Round) :
    ∀ s s2 : State, mainLoop rounds s = .ok none s2 →
      s2.trace.getLast? = some (.runUIReturned (some .ErrQuit)) := by
  induction rounds with
  | nil => intro s s2 h; simp [mainLoop] at h
  | cons r rs ih =>
    intro s s2 h
    rcases hres : runUI r s with ⟨_ | e, s1⟩ | s1 | s1
    · rw [mainLoop, hres] at h
      exact ih s1 s2 h
    · by_cases h1 : e = .ErrOpenEditor
      · subst h1
        rcases hact : s1.active with _ | c
        · rw [mainLoop, hres] at h
          simp [hact] at h
        · rcases ho : r.editorOpen with ⟨newLines, _ | e2⟩
          · rw [mainLoop_editor_update r rs s s1 c newLines hres hact ho] at h
            exact ih _ s2 h
          · rw [mainLoop_editor_fails r rs s s1 c newLines e2 hres hact ho] at h
            cases h
      · by_cases h2 : e = .ErrQuit
        · subst h2
          rw [mainLoop_quit r rs s s1 hres] at h
          cases h
          exact runUI_last r s s2 _ hres
        · rw [mainLoop_other r rs s s1 e hres h1 h2] at h
          exact ih s1 s2 h
    · rw [mainLoop, hres] at h; cases h
    · rw [mainLoop, hres] at h; cases h

/-- When `mainLoop` returns an error, it is the error of `editor.Open` in one
of the passes, and the call of the editor is the last entry of the log. -/
theorem mainLoop_err_last (rounds : List Round) :
    ∀ (s s2 : State) (e : Err), mainLoop rounds s = .ok (some e) s2 →
      (∃ c, s2.trace.getLast? = some (.editorOpen c)) ∧
      ∃ r ∈ rounds, r.editorOpen.2 = some e := by
  induction rounds with
  | nil => intro s s2 e h; simp [mainLoop] at h
  | cons r rs ih =>
    intro s s2 e h
    have lift : ((∃ c, s2.trace.getLast? = some (.editorOpen c)) ∧
        ∃ r2 ∈ rs, r2.editorOpen.2 = some e) →
        (∃ c, s2.trace.getLast? = some (.editorOpen c)) ∧
        ∃ r2 ∈ r :: rs, r2.editorOpen.2 = some e := by
      rintro ⟨hl, r2, hr2, he2⟩
      exact ⟨hl, r2, List.mem_cons_of_mem _ hr2, he2⟩
    rcases hres : runUI r s with ⟨_ | e1, s1⟩ | s1 | s1
    · rw [mainLoop, hres] at h
      exact lift (ih s1 s2 e h)
    · by_cases h1 : e1 = .ErrOpenEditor
      · subst h1
        rcases hact : s1.active with _ | c
        · rw [mainLoop, hres] at h
          simp [hact] at h
        · rcases ho : r.editorOpen with ⟨newLines, _ | e2⟩
          · rw [mainLoop_editor_update r rs s s1 c newLines hres hact ho] at h
            exact lift (ih _ s2 e h)
          · rw [mainLoop_editor_fails r rs s s1 c newLines e2 hres hact ho] at h
            cases h
            exact ⟨⟨c, by simp⟩, r, List.mem_cons_self _ _, by rw [ho]⟩
      · by_cases h2 : e1 = .ErrQuit
        · subst h2
          rw [mainLoop_quit r rs s s1 hres] at h
          cases h
        · rw [mainLoop_other r rs s s1 e1 hres h1 h2] at h
          exact lift (ih s1 s2 e h)
    · rw [mainLoop, hres] at h; cases h
    · rw [mainLoop, hres] at h; cases h

/-- What a pass of `mainLoop` does after its UI run only appends session
events. -/
theorem mainLoop_after_runUI (r : Round) (rs : List Round) (s : State) :
    Extends (runUI r s).state (mainLoop (r :: rs) s).state := by
  rcases hres : runUI r s with ⟨_ | e, s1⟩ | s1 | s1
  · rw [mainLoop, hres]
    exact mainLoop_extends rs s1
  · by_cases h1 : e = .ErrOpenEditor
    · subst h1
      rcases hact : s1.active with _ | c
      · rw [mainLoop, hres]
        simp only [if_true, hact]
        exact Extends.refl _
      · rcases ho : r.editorOpen with ⟨newLines, _ | e2⟩
        · rw [mainLoop_editor_update r rs s s1 c newLines hres hact ho]
          refine Extends.trans ?_ (mainLoop_extends rs _)
          exact Extends.of_fields s1 _ [.editorOpen c, .update c newLines] rfl
            (by simp [isSessionEvent]) rfl rfl rfl
        · rw [mainLoop_editor_fails r rs s s1 c newLines e2 hres hact ho]
          exact (Extends.refl _).step (.editorOpen c) rfl
    · by_cases h2 : e = .ErrQuit
      · subst h2
        rw [mainLoop_quit r rs s s1 hres]
        exact Extends.refl _
      · rw [mainLoop_other r rs s s1 e hres h1 h2]
        exact mainLoop_extends rs s1
  · rw [mainLoop, hres]
    exact Extends.refl _
  · rw [mainLoop, hres]
    exact Extends.refl _

/-- The first thing a pass of `mainLoop` does is to call `gocui.NewGui`: a
new UI run starts. -/
theorem mainLoop_head (r : Round) (rs : List Round) (s : State) :
    ∃ t, (mainLoop (r :: rs) s).state.trace = s.trace ++ .newGui r.newGui :: t :=
  StartsWith.of_extends (runUI_head r s) (mainLoop_after_runUI r rs s)

/-- A UI run that had its Gui ends with the deferred `g.Close()`. -/
theorem runUI_closes (r : Round) (s s1 : State) (res : Option Err)
    (h : runUI r s = .ok res s1) (hg : r.newGui = none) :
    ∃ t, s1.trace = t ++ [.guiClose, .runUIReturned res] := by
  unfold runUI at h
  simp only [emit_active, hg] at h
  rcases hb1 : r.bindCtrlC with _ | e
  · rw [hb1] at h
    simp only [] at h
    rcases hb2 : r.bindEnter with _ | e
    · rw [hb2] at h
      simp only [] at h
      rcases hact : s.active with _ | c
      · rw [hact] at h; cases h
      · rw [hact] at h
        simp only [] at h
        rcases hres : guiMainLoop r.events (Select c false (s.emit (.newGui none)))
          with ⟨res1, s2⟩ | s2 | s2
        · rw [hres] at h
          simp only [Res.ok.injEq] at h
          obtain ⟨h1, h2⟩ := h
          subst h1; subst h2
          exact ⟨s2.trace, by simp⟩
        · rw [hres] at h; cases h
        · rw [hres] at h; cases h
    · rw [hb2] at h
      simp only [Res.ok.injEq] at h
      obtain ⟨h1, h2⟩ := h
      subst h1; subst h2
      exact ⟨s.trace ++ [.newGui none], by simp⟩
  · rw [hb1] at h
    simp only [Res.ok.injEq] at h
    obtain ⟨h1, h2⟩ := h
    subst h1; subst h2
    exact ⟨s.trace ++ [.newGui none], by simp⟩

/-! ## The registry built by findConflicts -/

theorem foldl_snoc_map (f : Nat → Handle) (l : List Nat) :
    ∀ reg : List Handle, l.foldl (fun acc j => acc ++ [f j]) reg = reg ++ l.map f := by
  induction l with
  | nil => intro reg; simp
  | cons a l ih => intro reg; simp [ih]

theorem appendFile_eq (i n : Nat) (reg : List Handle) :
    appendFile i n reg = reg ++ fileHandles i n :=
  foldl_snoc_map (Handle.mk i) (List.range n) reg

theorem appendFiles_eq (fs : List File) :
    ∀ (i : Nat) (reg : List Handle), appendFiles i fs reg = reg ++ handlesFrom i fs := by
  induction fs with
  | nil => intro i reg; simp [appendFiles, handlesFrom]
  | cons f fs ih =>
    intro i reg
    simp [appendFiles, handlesFrom, ih, appendFile_eq]

theorem fileHandles_length (i n : Nat) : (fileHandles i n).length = n := by
  simp [fileHandles]

theorem handlesFrom_length (fs : List File) :
    ∀ i : Nat, (handlesFrom i fs).length = (fs.map fun f => f.Conflicts.length).sum := by
  induction fs with
  | nil => intro i; rfl
  | cons f fs ih => intro i; simp [handlesFrom, fileHandles_length, ih]

theorem handlesFrom_getElem (fs : List File) :
    ∀ (i k j : Nat) (f : File), fs[k]? = some f → j < f.Conflicts.length →
      (handlesFrom i fs)[conflictsBefore fs k + j]? = some ⟨i + k, j⟩ := by
  induction fs with
  | nil => intro i k j f h; simp at h
  | cons g gs ih =>
    intro i k j f h hj
    cases k with
    | zero =>
      simp at h
      subst h
      simp only [handlesFrom, conflictsBefore, List.take_zero, List.map_nil, List.sum_nil,
        Nat.zero_add, Nat.add_zero]
      rw [List.getElem?_append_left (by rw [fileHandles_length]; exact hj)]
      simp [fileHandles, List.getElem?_range hj]
    | succ k =>
      simp at h
      have hcb : conflictsBefore (g :: gs) (k + 1) = g.Conflicts.length + conflictsBefore gs k := by
        simp [conflictsBefore]
      simp only [handlesFrom, hcb]
      rw [List.getElem?_append_right (by rw [fileHandles_length]; omega)]
      rw [fileHandles_length]
      have hidx : g.Conflicts.length + conflictsBefore gs k + j - g.Conflicts.length
          = conflictsBefore gs k + j := by omega
      rw [hidx, ih (i + 1) k j f h hj]
      congr 2
      omega

theorem range_map_getElem {α : Type} (l : List α) :
    (List.range l.length).map (fun j => l.get? j) = l.map some := by
  apply List.ext_getElem?
  intro n
  by_cases hn : n < l.length
  · simp [List.getElem?_range hn, List.getElem?_eq_getElem hn]
  · have h1 : l.length ≤ n := by omega
    simp [List.getElem?_eq_none, h1]

theorem handlesFrom_deref (fs : List File) :
    ∀ pre : List File, (handlesFrom pre.length fs).map (deref (pre ++ fs))
      = (fs.flatMap fun f => f.Conflicts).map some := by
  induction fs with
  | nil => intro pre; simp [handlesFrom]
  | cons g gs ih =>
    intro pre
    have hrest := ih (pre ++ [g])
    simp only [List.length_append, List.length_singleton, List.append_assoc,
      List.singleton_append] at hrest
    simp only [handlesFrom, List.map_append, hrest, List.flatMap_cons]
    congr 1
    simp only [fileHandles, List.map_map]
    rw [← range_map_getElem g.Conflicts]
    apply List.map_congr_left
    intro j _
    have hg : (pre ++ g :: gs).get? pre.length = some g := by
      rw [List.get?_eq_getElem?, List.getElem?_append_right (Nat.le_refl _)]
      simp
    simp only [deref, Function.comp, hg, Option.some_bind]

/-- The search succeeded: the registry gets the pointers of all files. -/
theorem findConflicts_ok (env : Env) (s : State) (cwd : String) (files : List File)
    (hwd : env.getwd = (cwd, none)) (hf : env.find cwd = (files, none)) :
    findConflicts env s
      = (files, none, { s with conflicts := s.conflicts ++ handlesFrom 0 files }) := by
  simp [findConflicts, hwd, hf, appendFiles_eq]

/-- The search for conflicts makes no logged call and writes no file, and
when it returns an error the state is untouched. -/
theorem findConflicts_frame (env : Env) (s : State) :
    (findConflicts env s).2.2.trace = s.trace ∧
    (findConflicts env s).2.2.written = s.written ∧
    (findConflicts env s).2.2.binding = s.binding ∧
    (findConflicts env s).2.2.cur = s.cur ∧
    (findConflicts env s).2.2.consecutiveErrCnt = s.consecutiveErrCnt ∧
    ((findConflicts env s).2.1 ≠ none → (findConflicts env s).2.2 = s) := by
  unfold findConflicts
  rcases env.getwd with ⟨cwd, _ | e⟩
  · simp only []
    rcases env.find cwd with ⟨files, _ | e⟩
    · simp
    · simp
  · simp

/-! ## The end of main -/

theorem session_not_finalizer (e : Event) (h : isSessionEvent e = true) :
    isFinalizerEvent e = false := by
  cases e <;> simp_all [isSessionEvent, isFinalizerEvent]

/-- The write loop when the write-back of file `i0 + k` is the first to
fail: the files before it are written, it is tried, and no later one is. -/
theorem writeLoop_fails (env : Env) (e : Err) (fs : List File) :
    ∀ (i0 k : Nat) (s : State), k < fs.length →
      (∀ i < k, env.writeChanges (i0 + i) = none) → env.writeChanges (i0 + k) = some e →
      writeLoop env i0 fs s = (some e,
        { s with trace := s.trace ++ (List.range' i0 (k + 1)).map .writeChanges,
                 written := s.written ++ List.range' i0 k }) := by
  induction fs with
  | nil => intro i0 k s hk; simp at hk
  | cons f fs ih =>
    intro i0 k s hk hok hfail
    cases k with
    | zero =>
      simp only [Nat.add_zero] at hfail
      simp [writeLoop, WriteChanges, hfail, State.emit]
    | succ k =>
      have h0 : env.writeChanges i0 = none := by simpa using hok 0 (by omega)
      have hk2 : k < fs.length := by simpa using hk
      have hok2 : ∀ i < k, env.writeChanges (i0 + 1 + i) = none := by
        intro i hi
        have := hok (i + 1) (by omega)
        rwa [show i0 + (i + 1) = i0 + 1 + i by omega] at this
      have hfail2 : env.writeChanges (i0 + 1 + k) = some e := by
        rwa [show i0 + (k + 1) = i0 + 1 + k by omega] at hfail
      simp only [writeLoop, WriteChanges, h0]
      rw [ih (i0 + 1) k _ hk2 hok2 hfail2]
      simp [State.emit, List.range'_succ]

/-- The write loop when every write-back succeeds. -/
theorem writeLoop_succeeds (env : Env) (fs : List File) :
    ∀ (i0 : Nat) (s : State), (∀ i < fs.length, env.writeChanges (i0 + i) = none) →
      writeLoop env i0 fs s = (none,
        { s with trace := s.trace ++ (List.range' i0 fs.length).map .writeChanges,
                 written := s.written ++ List.range' i0 fs.length }) := by
  induction fs with
  | nil => intro i0 s _; simp [writeLoop]
  | cons f fs ih =>
    intro i0 s hok
    have h0 : env.writeChanges i0 = none := by simpa using hok 0 (by simp)
    have hok2 : ∀ i < fs.length, env.writeChanges (i0 + 1 + i) = none := by
      intro i hi
      have := hok (i + 1) (by simpa using hi)
      rwa [show i0 + (i + 1) = i0 + 1 + i by omega] at this
    simp only [writeLoop, WriteChanges, h0]
    rw [ih (i0 + 1) _ hok2]
    simp [State.emit, List.range'_succ]

/-- The function `main` once the settings are loaded and the search found at
least one conflict. -/
theorem main_session (env : Env) (files : List File) (s1 : State)
    (hl : env.loadSettings.2 = none) (hfc : findConflicts env (boot env) = (files, none, s1))
    (hne : s1.conflicts ≠ []) :
    main env =
      match mainLoop env.rounds s1 with
      | .ok (some err) s2 => die err s2
      | .ok none s2 =>
        match writeLoop env 0 files s2 with
        | (some err, s3) => die err s3
        | (none, s3) => .exited 0 (PrintSummary s3.conflicts s3)
      | .panic s2 => .panicked s2
      | .blocked s2 => .blocked s2 := by
  have hfc2 : findConflicts env { State.init with binding := env.loadSettings.1 }
      = (files, none, s1) := hfc
  have hlen : ¬ (s1.conflicts.length = 0) := by
    intro h; exact hne (List.length_eq_zero.mp h)
  simp only [main, hl, hfc2, hlen, if_false]

/-- After a successful search the log is empty and no file is written, and
so it is after the session: only session events are logged. -/
theorem session_log (env : Env) (files : List File) (s1 : State)
    (hfc : findConflicts env (boot env) = (files, none, s1)) :
    s1.trace = [] ∧ s1.written = [] ∧
    ∀ s2, Extends s1 s2 →
      s2.written = [] ∧ s2.conflicts = s1.conflicts ∧
      ∀ ev ∈ s2.trace, isSessionEvent ev = true := by
  have hfr := findConflicts_frame env (boot env)
  rw [hfc] at hfr
  obtain ⟨ht, hw, -⟩ := hfr
  have ht1 : s1.trace = [] := ht
  have hw1 : s1.written = [] := hw
  refine ⟨ht1, hw1, ?_⟩
  rintro s2 ⟨⟨t, htr, hs⟩, hc, hwr, -⟩
  refine ⟨by rw [hwr, hw1], hc, ?_⟩
  intro ev hev
  rw [htr, ht1] at hev
  exact hs ev (by simpa using hev)

/-! ## Sessions without a forced selection -/

theorem Unforced.same (s : State) : Unforced s s :=
  ⟨[], by simp, by simp⟩

theorem Unforced.chain {s1 s2 s3 : State} (h12 : Unforced s1 s2) (h23 : Unforced s2 s3) :
    Unforced s1 s3 := by
  obtain ⟨t1, ht1, hs1⟩ := h12
  obtain ⟨t2, ht2, hs2⟩ := h23
  refine ⟨t1 ++ t2, by rw [ht2, ht1, List.append_assoc], ?_⟩
  intro e he
  rcases List.mem_append.mp he with h | h
  · exact hs1 e h
  · exact hs2 e h

theorem Unforced.add {s1 s2 : State} (h : Unforced s1 s2) (e : Event)
    (he : isForcedSelect e = false) : Unforced s1 (s2.emit e) :=
  Unforced.chain h ⟨[e], rfl, by simpa using he⟩

/-- A state that differs from `s` by the given events appended to the log. -/
theorem Unforced.of_trace (s s2 : State) (t : List Event) (ht : s2.trace = s.trace ++ t)
    (hs : ∀ e ∈ t, isForcedSelect e = false) : Unforced s s2 :=
  ⟨t, ht, hs⟩

/-- The handler makes no forced selection when the evaluator does not answer
`ErrUnknownCmd`. -/
theorem parseInput_unforced (buffer : String) (reply : EvalReply) (s : State)
    (h : reply.err ≠ some .ErrUnknownCmd) : Unforced s (parseInput buffer reply s).state := by
  rcases hact : s.active with _ | c
  · have hact1 : index s.conflicts s.cur = none := hact
    have hp : parseInput buffer reply s = .panic (s.emit .clearInput) := by
      simp [parseInput, State.active, hact1]
    rw [hp]
    exact (Unforced.same s).add .clearInput rfl
  · rcases hre : reply.err with _ | e
    · rw [parseInput_applied buffer reply s c hact hre]
      exact Unforced.of_trace s _ (evalEvents c buffer ++ [Event.printPrompt]) rfl
        (by simp [evalEvents, isForcedSelect])
    · have he : e ≠ .ErrUnknownCmd := by
        intro h1; apply h; rw [hre, h1]
      rw [parseInput_error buffer reply s c e hact hre he]
      exact Unforced.of_trace s _ (evalEvents c buffer) rfl
        (by simp [evalEvents, isForcedSelect])

/-- The event loop makes no forced selection when no command is unknown. -/
theorem guiMainLoop_unforced (evs : List GuiEvent) :
    ∀ s : State, noUnknown evs → Unforced s (guiMainLoop evs s).state := by
  induction evs with
  | nil => intro s _; exact Unforced.same s
  | cons ev evs ih =>
    intro s hno
    have hno2 : noUnknown evs := fun b rep hm => hno b rep (List.mem_cons_of_mem _ hm)
    cases ev with
    | enter buffer reply =>
      have hp := parseInput_unforced buffer reply s (hno buffer reply (List.mem_cons_self _ _))
      simp only [guiMainLoop]
      rcases hres : parseInput buffer reply s with ⟨_ | e, s1⟩ | s1 | s1
      · rw [hres] at hp
        exact Unforced.chain hp (ih s1 hno2)
      · rw [hres] at hp; exact hp
      · rw [hres] at hp; exact hp
      · rw [hres] at hp; exact hp
    | ctrlC => exact Unforced.same s
    | globalQuit => exact Unforced.same s
    | failure e => exact Unforced.same s

/-- A UI run makes no forced selection when no command is unknown: its own
selection has the force flag false. -/
theorem runUI_unforced (r : Round) (s : State) (hno : noUnknown r.events) :
    Unforced s (runUI r s).state := by
  have h0 : Unforced s (s.emit (.newGui r.newGui)) :=
    (Unforced.same s).add (.newGui r.newGui) rfl
  refine Unforced.chain h0 ?_
  unfold runUI
  simp only [emit_active]
  rcases hg : r.newGui with _ | e
  · simp only []
    rcases r.bindCtrlC with _ | e
    · simp only []
      rcases r.bindEnter with _ | e
      · simp only []
        rcases s.active with _ | c
        · exact (Unforced.same _).add .guiClose rfl
        · simp only []
          have hl := guiMainLoop_unforced r.events (Select c false (s.emit (.newGui none))) hno
          have hsel : Unforced (s.emit (.newGui none)) (Select c false (s.emit (.newGui none))) :=
            (Unforced.same _).add (.select c false) rfl
          rcases hres : guiMainLoop r.events (Select c false (s.emit (.newGui none)))
            with ⟨res, s1⟩ | s1 | s1
          · rw [hres] at hl
            exact ((Unforced.chain hsel hl).add .guiClose rfl).add (.runUIReturned res) rfl
          · rw [hres] at hl
            exact (Unforced.chain hsel hl).add .guiClose rfl
          · rw [hres] at hl
            exact Unforced.chain hsel hl
      · exact ((Unforced.same _).add .guiClose rfl).add (.runUIReturned (some e)) rfl
    · exact ((Unforced.same _).add .guiClose rfl).add (.runUIReturned (some e)) rfl
  · exact (Unforced.same _).add (.runUIReturned (some e)) rfl

/-- The session loop makes no forced selection when no command of any pass is
unknown, whatever the editor and the updates answer. -/
theorem mainLoop_unforced (rounds : List Round) :
    ∀ s : State, (∀ r ∈ rounds, noUnknown r.events) →
      Unforced s (mainLoop rounds s).state := by
  induction rounds with
  | nil => intro s _; exact Unforced.same s
  | cons r rs ih =>
    intro s hno
    have hr := runUI_unforced r s (hno r (List.mem_cons_self _ _))
    have hno2 : ∀ r2 ∈ rs, noUnknown r2.events := fun r2 h2 => hno r2 (List.mem_cons_of_mem _ h2)
    rcases hres : runUI r s with ⟨_ | e, s1⟩ | s1 | s1
    · rw [hres] at hr
      rw [mainLoop, hres]
      exact hr.chain (ih s1 hno2)
    · rw [hres] at hr
      by_cases h1 : e = .ErrOpenEditor
      · subst h1
        rcases hact : s1.active with _ | c
        · rw [mainLoop, hres]
          simp only [if_true, hact]
          exact hr
        · rcases ho : r.editorOpen with ⟨newLines, _ | e2⟩
          · rw [mainLoop_editor_update r rs s s1 c newLines hres hact ho]
            refine Unforced.chain (hr.chain ?_) (ih _ hno2)
            exact Unforced.of_trace s1 _ [Event.editorOpen c, Event.update c newLines] rfl
              (by simp [isForcedSelect])
          · rw [mainLoop_editor_fails r rs s s1 c newLines e2 hres hact ho]
            exact hr.add (.editorOpen c) rfl
      · by_cases h2 : e = .ErrQuit
        · subst h2
          rw [mainLoop_quit r rs s s1 hres]
          exact hr
        · rw [mainLoop_other r rs s s1 e hres h1 h2]
          exact hr.chain (ih s1 hno2)
    · rw [hres] at hr
      rw [mainLoop, hres]
      exact hr
    · rw [hres] at hr
      rw [mainLoop, hres]
      exact hr

/-- A pass whose Gui starts calls `gocui.NewGui` and then selects the active
conflict with the force flag false. -/
theorem mainLoop_head_select (r : Round) (rs : List Round) (s : State) (c : Handle)
    (hg : r.newGui = none) (hb1 : r.bindCtrlC = none) (hb2 : r.bindEnter = none)
    (hc : s.active = some c) :
    ∃ t, (mainLoop (r :: rs) s).state.trace
      = s.trace ++ .newGui none :: .select c false :: t := by
  have hrun : StartsWith (s.emit (.newGui none)) (.select c false) (runUI r s).state := by
    have hsel : StartsWith (s.emit (.newGui none)) (.select c false)
        (Select c false (s.emit (.newGui none))) := ⟨[], rfl⟩
    unfold runUI
    simp only [emit_active, hg, hb1, hb2, hc]
    have hl := guiMainLoop_extends r.events (Select c false (s.emit (.newGui none)))
    rcases hres : guiMainLoop r.events (Select c false (s.emit (.newGui none)))
      with ⟨res, s1⟩ | s1 | s1
    · rw [hres] at hl
      exact hsel.of_extends ((hl.step .guiClose rfl).step (.runUIReturned res) rfl)
    · rw [hres] at hl
      exact hsel.of_extends (hl.step .guiClose rfl)
    · rw [hres] at hl
      exact hsel.of_extends hl
  obtain ⟨t, ht⟩ := hrun.of_extends (mainLoop_after_runUI r rs s)
  exact ⟨t, by rw [ht]; simp⟩

/-! ## Claims about parseInput -/

/-- C6: `parseInput` classifies the result of the evaluator by the identity of
the error value. With the cursor on a conflict before and after the
evaluation, it returns nil exactly when the evaluator returned no error or
`ErrUnknownCmd`, and then the prompt is the last thing printed; for every
other error, `ErrOpenEditor` included, it returns that error, leaves
`consecutiveErrCnt` as it was and has called neither Select nor PrintPrompt:
the only calls are the clearing of the input view and Evaluate. -/
theorem parseInput_classifies (buffer : String) (reply : EvalReply) (s : State)
    (c c2 : Handle) (hc : s.active = some c)
    (hc2 : index s.conflicts reply.cur = some c2) :
    ∃ res s', parseInput buffer reply s = .ok res s' ∧
      (res = none ↔ reply.err = none ∨ reply.err = some .ErrUnknownCmd) ∧
      (res = none → s'.trace.getLast? = some .printPrompt) ∧
      (∀ e, reply.err = some e → e ≠ .ErrUnknownCmd →
        res = some e ∧ s'.consecutiveErrCnt = s.consecutiveErrCnt ∧
        s'.trace = s.trace ++ [.clearInput, .evaluate c (trimSuffixNewline buffer)]) := by
  rcases hre : reply.err with _ | e
  · refine ⟨_, _, parseInput_applied buffer reply s c hc hre, by simp, ?_, ?_⟩
    · intro _; simp [evalEvents]
    · intro e h; cases h
  · by_cases he : e = .ErrUnknownCmd
    · subst he
      by_cases hn : 3 < s.consecutiveErrCnt + 1
      · refine ⟨_, _, parseInput_unknown_high buffer reply s c c2 hc hre hn hc2, by simp, ?_, ?_⟩
        · intro _; simp [evalEvents]
        · intro e h hne; cases h; exact absurd rfl hne
      · refine ⟨_, _, parseInput_unknown_low buffer reply s c hc hre (by omega), by simp, ?_, ?_⟩
        · intro _; simp [evalEvents]
        · intro e h hne; cases h; exact absurd rfl hne
    · refine ⟨_, _, parseInput_error buffer reply s c e hc hre he, by simp [he], ?_, ?_⟩
      · intro h; cases h
      · intro e2 h _; cases h; exact ⟨rfl, rfl, rfl⟩

/-- C6 at a concrete input: one conflict, the evaluator answers
`ErrOpenEditor`. -/
theorem parseInput_classifies_witness :
    ∃ res s', parseInput "e\n" editorReply oneConflict = .ok res s' ∧
      (res = none ↔ editorReply.err = none ∨ editorReply.err = some .ErrUnknownCmd) ∧
      (res = none → s'.trace.getLast? = some .printPrompt) ∧
      (∀ e, editorReply.err = some e → e ≠ .ErrUnknownCmd →
        res = some e ∧ s'.consecutiveErrCnt = oneConflict.consecutiveErrCnt ∧
        s'.trace = oneConflict.trace ++
          [.clearInput, .evaluate ⟨0, 0⟩ (trimSuffixNewline "e\n")]) :=
  parseInput_classifies "e\n" editorReply oneConflict ⟨0, 0⟩ ⟨0, 0⟩ rfl rfl

/-- C2: commands whose evaluation gives no error (Applied) or `ErrUnknownCmd`
(UnknownCommand) are dispatched one after another by `parseInput`, from any
value of the counter and so from 0, with the cursor kept on a conflict. For
every command `x` of the sequence, reached in state `s` after the commands
before it: `parseInput` returns nil; after Applied the counter is 0; after
UnknownCommand it is one more than before; if the step leaves the counter
above 3, the step itself called Select on `conflicts[cur]` with the force
flag; and if it leaves the counter at 3 or less, the step made no forced
selection. -/
theorem counter_invariant (cmds : List (String × EvalReply)) (s0 : State)
    (hc0 : (s0.active).isSome)
    (hout : ∀ x ∈ cmds, x.2.err = none ∨ x.2.err = some .ErrUnknownCmd)
    (hcur : ∀ x ∈ cmds, (index s0.conflicts x.2.cur).isSome)
    (pre : List (String × EvalReply)) (x : String × EvalReply)
    (post : List (String × EvalReply)) (hsplit : cmds = pre ++ x :: post) :
    ∃ s s' evs, guiMainLoop (enters pre) s0 = .blocked s ∧
      parseInput x.1 x.2 s = .ok none s' ∧ s'.trace = s.trace ++ evs ∧
      (x.2.err = none → s'.consecutiveErrCnt = 0) ∧
      (x.2.err = some .ErrUnknownCmd → s'.consecutiveErrCnt = s.consecutiveErrCnt + 1) ∧
      (3 < s'.consecutiveErrCnt →
        ∃ c, index s'.conflicts s'.cur = some c ∧ Event.select c true ∈ evs) ∧
      (s'.consecutiveErrCnt ≤ 3 → ∀ e ∈ evs, isForcedSelect e = false) := by
  subst hsplit
  obtain ⟨s, hs, hsc, hsa⟩ := guiMainLoop_enters pre s0 hc0
    (fun y hy => hout y (List.mem_append_left _ hy))
    (fun y hy => hcur y (List.mem_append_left _ hy))
  have hx : x ∈ pre ++ x :: post := List.mem_append_right _ (List.mem_cons_self _ _)
  obtain ⟨c, hc⟩ := Option.isSome_iff_exists.mp hsa
  obtain ⟨c2, hc2⟩ := Option.isSome_iff_exists.mp (hcur x hx)
  rw [← hsc] at hc2
  obtain ⟨s', evs, hp, hconf, hcur', htr, h1, h2, h3, h4⟩ :=
    parseInput_step x.1 x.2 s c c2 hc hc2 (hout x hx)
  exact ⟨s, s', evs, hs, hp, htr, h1, h2,
    fun h => ⟨c2, by rw [hconf, hcur']; exact hc2, h3 h⟩, h4⟩

/-- C2 at a concrete input: five commands on one conflict, the fifth an
unknown command after three unknown ones and one applied. -/
theorem counter_invariant_witness :
    ∃ s s' evs,
      guiMainLoop (enters [("a", unknownReply), ("b", unknownReply), ("c", unknownReply),
        ("d", unknownReply)]) oneConflict = .blocked s ∧
      parseInput "e" unknownReply s = .ok none s' ∧ s'.trace = s.trace ++ evs ∧
      (unknownReply.err = none → s'.consecutiveErrCnt = 0) ∧
      (unknownReply.err = some .ErrUnknownCmd →
        s'.consecutiveErrCnt = s.consecutiveErrCnt + 1) ∧
      (3 < s'.consecutiveErrCnt →
        ∃ c, index s'.conflicts s'.cur = some c ∧ Event.select c true ∈ evs) ∧
      (s'.consecutiveErrCnt ≤ 3 → ∀ e ∈ evs, isForcedSelect e = false) :=
  counter_invariant
    [("a", unknownReply), ("b", unknownReply), ("c", unknownReply), ("d", unknownReply),
      ("e", unknownReply), ("f", appliedReply)]
    oneConflict rfl (by decide) (by decide)
    [("a", unknownReply), ("b", unknownReply), ("c", unknownReply), ("d", unknownReply)]
    ("e", unknownReply) [("f", appliedReply)] rfl

/-- C3 as stated fails: after four unknown commands on the one conflict of
`oneConflict`, starting from counter 0, the loop waits for the next event
with the counter at 4, not at 0. -/
theorem four_unknown_counter_not_reset :
    (guiMainLoop [.enter "a" unknownReply, .enter "b" unknownReply, .enter "c" unknownReply,
      .enter "d" unknownReply] oneConflict).state.consecutiveErrCnt = 4 ∧
    (guiMainLoop [.enter "a" unknownReply, .enter "b" unknownReply, .enter "c" unknownReply,
      .enter "d" unknownReply] oneConflict).state.consecutiveErrCnt ≠ 0 := by
  decide

/-- C3, amended: from counter 0, four consecutive `ErrUnknownCmd` answers on
the same active conflict `c` are all handled with nil; the first three print
the prompt only, the fourth calls Select on `c` with the force flag, so there
is exactly one forced selection; after it the counter is 4 (it is not
reset). -/
theorem four_unknown_one_fallback (s : State) (c : Handle) (b1 b2 b3 b4 : String)
    (h0 : s.consecutiveErrCnt = 0) (hc : s.active = some c) :
    ∃ s4 evs,
      guiMainLoop [.enter b1 ⟨some .ErrUnknownCmd, s.cur⟩, .enter b2 ⟨some .ErrUnknownCmd, s.cur⟩,
        .enter b3 ⟨some .ErrUnknownCmd, s.cur⟩, .enter b4 ⟨some .ErrUnknownCmd, s.cur⟩] s
        = .blocked s4 ∧
      s4.consecutiveErrCnt = 4 ∧ s4.cur = s.cur ∧ s4.conflicts = s.conflicts ∧
      s4.trace = s.trace ++ evs ∧
      evs = [.clearInput, .evaluate c (trimSuffixNewline b1), .printPrompt,
             .clearInput, .evaluate c (trimSuffixNewline b2), .printPrompt,
             .clearInput, .evaluate c (trimSuffixNewline b3), .printPrompt,
             .clearInput, .evaluate c (trimSuffixNewline b4), .select c true, .printPrompt] ∧
      evs.countP isForcedSelect = 1 := by
  have hc1 : index s.conflicts s.cur = some c := hc
  refine ⟨{ s with consecutiveErrCnt := 4, trace := s.trace ++
      [.clearInput, .evaluate c (trimSuffixNewline b1), .printPrompt,
       .clearInput, .evaluate c (trimSuffixNewline b2), .printPrompt,
       .clearInput, .evaluate c (trimSuffixNewline b3), .printPrompt,
       .clearInput, .evaluate c (trimSuffixNewline b4), .select c true, .printPrompt] },
    _, ?_, rfl, rfl, rfl, rfl, rfl, ?_⟩
  · simp [guiMainLoop, parseInput, State.active, State.emit, PrintPrompt, Select, hc1, h0]
  · simp [List.countP_cons, isForcedSelect]

/-- C3 amended, at a concrete input: the one conflict of `oneConflict`. -/
theorem four_unknown_one_fallback_witness :
    ∃ s4 evs,
      guiMainLoop [.enter "a" ⟨some .ErrUnknownCmd, oneConflict.cur⟩,
        .enter "b" ⟨some .ErrUnknownCmd, oneConflict.cur⟩,
        .enter "c" ⟨some .ErrUnknownCmd, oneConflict.cur⟩,
        .enter "d" ⟨some .ErrUnknownCmd, oneConflict.cur⟩] oneConflict = .blocked s4 ∧
      s4.consecutiveErrCnt = 4 ∧ s4.cur = oneConflict.cur ∧
      s4.conflicts = oneConflict.conflicts ∧
      s4.trace = oneConflict.trace ++ evs ∧
      evs = [.clearInput, .evaluate ⟨0, 0⟩ (trimSuffixNewline "a"), .printPrompt,
             .clearInput, .evaluate ⟨0, 0⟩ (trimSuffixNewline "b"), .printPrompt,
             .clearInput, .evaluate ⟨0, 0⟩ (trimSuffixNewline "c"), .printPrompt,
             .clearInput, .evaluate ⟨0, 0⟩ (trimSuffixNewline "d"), .select ⟨0, 0⟩ true,
             .printPrompt] ∧
      evs.countP isForcedSelect = 1 :=
  four_unknown_one_fallback oneConflict ⟨0, 0⟩ "a" "b" "c" "d" rfl rfl

/-! ## Claims about mainLoop -/

/-- C1, the code at the failing inputs: a UI run returns an error that is
neither `ErrOpenEditor` nor `gocui.ErrQuit` (first `gocui.NewGui` fails, then
the evaluator fails), and `mainLoop` does not return it: it starts another UI
run, and when that one ends with Ctrl+C it returns nil. -/
theorem mainLoop_drops_other_errors :
    mainLoop [noGuiRound, quitRound] oneConflict = .ok none
      { oneConflict with trace :=
          [.newGui (some (.other "no terminal")),
           .runUIReturned (some (.other "no terminal")),
           .newGui none, .select ⟨0, 0⟩ false, .guiClose,
           .runUIReturned (some .ErrQuit)] } ∧
    mainLoop [fatalRound, quitRound] oneConflict = .ok none
      { oneConflict with trace :=
          [.newGui none, .select ⟨0, 0⟩ false, .clearInput, .evaluate ⟨0, 0⟩ "x", .guiClose,
           .runUIReturned (some (.other "evaluator failed")),
           .newGui none, .select ⟨0, 0⟩ false, .guiClose,
           .runUIReturned (some .ErrQuit)] } := by
  decide

/-- C4 as stated fails at counter 3: an unknown command dispatched by
`parseInput` takes the counter to 4 and makes the forced selection, while a
failed update after an editor session takes the counter to 4 and no forced
selection is made, neither by `mainLoop` nor by the UI run that follows. -/
theorem failed_update_no_forced_select :
    (parseInput "x" unknownReply threeErrors).state.consecutiveErrCnt = 4 ∧
    Event.select ⟨0, 0⟩ true ∈ (parseInput "x" unknownReply threeErrors).state.trace ∧
    (mainLoop [badEditRound] threeErrors).state.consecutiveErrCnt = 4 ∧
    (∀ e ∈ (mainLoop [badEditRound] threeErrors).state.trace, isForcedSelect e = false) ∧
    (∀ e ∈ (mainLoop [badEditRound, quitRound] threeErrors).state.trace,
      isForcedSelect e = false) := by
  decide

/-- C4, amended: a failed `Update` after an editor session counts like one
unknown command, but without the fallback. For every counter value before,
the counter is incremented once, the session is not aborted (the loop goes
on to its next pass, which starts a new UI run by calling `gocui.NewGui`,
with the same cursor, the same registry and so the same active conflict),
and `mainLoop` makes no selection: the only calls between the two UI runs are
`editor.Open` and `Update`. When the Gui of the next run starts, its first
selection is `Select` on the same conflict with the force flag false, and as
long as no command is answered with `ErrUnknownCmd` no forced selection is
made in the rest of the session. An unknown command dispatched by
`parseInput` from the same state increments the counter in the same way and
makes the forced selection exactly when the incremented counter is above 3,
which for a counter below the largest `int` is exactly when the counter
before was 3 or more. -/
theorem failed_update_counts_as_unknown (r : Round) (rs : List Round) (s s1 : State)
    (c : Handle) (newLines : List String) (e : Err) (buffer : String)
    (h : runUI r s = .ok (some .ErrOpenEditor) s1) (hc : s1.active = some c)
    (ho : r.editorOpen = (newLines, none)) (hu : r.update = some e) :
    (∃ s2, mainLoop (r :: rs) s = mainLoop rs s2 ∧
      s2.consecutiveErrCnt = s1.consecutiveErrCnt + 1 ∧
      s2.cur = s1.cur ∧ s2.conflicts = s1.conflicts ∧ s2.active = some c ∧
      s2.trace = s1.trace ++ [.editorOpen c, .update c newLines] ∧
      (∀ r2 rs2, rs = r2 :: rs2 →
        ∃ t, (mainLoop rs s2).state.trace = s2.trace ++ .newGui r2.newGui :: t) ∧
      (∀ r2 rs2, rs = r2 :: rs2 →
        r2.newGui = none → r2.bindCtrlC = none → r2.bindEnter = none →
        ∃ t, (mainLoop rs s2).state.trace
          = s2.trace ++ .newGui none :: .select c false :: t) ∧
      ((∀ r2 ∈ rs, noUnknown r2.events) →
        ∃ t, (mainLoop rs s2).state.trace = s2.trace ++ t ∧
          ∀ ev ∈ t, isForcedSelect ev = false)) ∧
    (∃ s3 evs, parseInput buffer ⟨some .ErrUnknownCmd, s1.cur⟩ s1 = .ok none s3 ∧
      s3.consecutiveErrCnt = s1.consecutiveErrCnt + 1 ∧
      s3.trace = s1.trace ++ evs ∧
      (Event.select c true ∈ evs ↔ 3 < s3.consecutiveErrCnt) ∧
      (s1.consecutiveErrCnt < maxInt →
        (Event.select c true ∈ evs ↔ 3 ≤ s1.consecutiveErrCnt))) := by
  have hc1 : index s1.conflicts s1.cur = some c := hc
  constructor
  · refine ⟨_, mainLoop_editor_update r rs s s1 c newLines h hc ho, by simp [hu], rfl, rfl,
      hc, rfl, ?_, ?_, ?_⟩
    · intro r2 rs2 hrs
      subst hrs
      exact mainLoop_head r2 rs2 _
    · intro r2 rs2 hrs hg hb1 hb2
      subst hrs
      exact mainLoop_head_select r2 rs2 _ c hg hb1 hb2 hc
    · intro hno
      exact mainLoop_unforced rs _ hno
  · by_cases hn : 3 < s1.consecutiveErrCnt + 1
    · refine ⟨_, _, parseInput_unknown_high buffer _ s1 c c hc rfl hn hc1, rfl, rfl, ?_, ?_⟩
      · simp [evalEvents]
        omega
      · intro _
        simp [evalEvents]
        omega
    · refine ⟨_, _, parseInput_unknown_low buffer _ s1 c hc rfl (by omega), rfl, rfl, ?_, ?_⟩
      · simp [evalEvents]
        omega
      · intro _
        simp [evalEvents]
        omega

/-- C4 amended, at a concrete input: one conflict, counter 3, the user asks
for the editor, the update fails, and the next pass ends with Ctrl+C. -/
theorem failed_update_counts_as_unknown_witness :
    (∃ s2, mainLoop [badEditRound, quitRound] threeErrors = mainLoop [quitRound] s2 ∧
      s2.consecutiveErrCnt = 3 + 1 ∧
      s2.cur = 0 ∧ s2.conflicts = [⟨0, 0⟩] ∧ s2.active = some ⟨0, 0⟩ ∧
      s2.trace = [.newGui none, .select ⟨0, 0⟩ false, .clearInput, .evaluate ⟨0, 0⟩ "e",
          .guiClose, .runUIReturned (some .ErrOpenEditor)] ++
        [.editorOpen ⟨0, 0⟩, .update ⟨0, 0⟩ ["resolved"]] ∧
      (∀ r2 rs2, [quitRound] = r2 :: rs2 →
        ∃ t, (mainLoop [quitRound] s2).state.trace = s2.trace ++ .newGui r2.newGui :: t) ∧
      (∀ r2 rs2, [quitRound] = r2 :: rs2 →
        r2.newGui = none → r2.bindCtrlC = none → r2.bindEnter = none →
        ∃ t, (mainLoop [quitRound] s2).state.trace
          = s2.trace ++ .newGui none :: .select ⟨0, 0⟩ false :: t) ∧
      ((∀ r2 ∈ [quitRound], noUnknown r2.events) →
        ∃ t, (mainLoop [quitRound] s2).state.trace = s2.trace ++ t ∧
          ∀ ev ∈ t, isForcedSelect ev = false)) ∧
    (∃ s3 evs, parseInput "x" ⟨some .ErrUnknownCmd, 0⟩
        { threeErrors with cur := 0, trace :=
          [.newGui none, .select ⟨0, 0⟩ false, .clearInput, .evaluate ⟨0, 0⟩ "e",
            .guiClose, .runUIReturned (some .ErrOpenEditor)] } = .ok none s3 ∧
      s3.consecutiveErrCnt = 3 + 1 ∧
      s3.trace = [.newGui none, .select ⟨0, 0⟩ false, .clearInput, .evaluate ⟨0, 0⟩ "e",
          .guiClose, .runUIReturned (some .ErrOpenEditor)] ++ evs ∧
      (Event.select ⟨0, 0⟩ true ∈ evs ↔ 3 < s3.consecutiveErrCnt) ∧
      (3 < maxInt → (Event.select ⟨0, 0⟩ true ∈ evs ↔ 3 ≤ 3))) :=
  failed_update_counts_as_unknown badEditRound [quitRound] threeErrors
    { threeErrors with cur := 0, trace :=
      [.newGui none, .select ⟨0, 0⟩ false, .clearInput, .evaluate ⟨0, 0⟩ "e",
        .guiClose, .runUIReturned (some .ErrOpenEditor)] }
    ⟨0, 0⟩ ["resolved"] (.other "cannot parse") "x" (by decide) (by decide) rfl rfl

/-- C5 as stated fails when the update fails: the UI run ends with
`ErrOpenEditor` and the counter at 0, the editor returns content, and the
loop is ready for the next UI run with the counter at 1. -/
theorem editor_handoff_counter_changes :
    (∃ s1, runUI badEditRound oneConflict = .ok (some .ErrOpenEditor) s1 ∧
      s1.consecutiveErrCnt = 0) ∧
    badEditRound.editorOpen = (["resolved"], none) ∧
    (∃ s2, mainLoop [badEditRound] oneConflict = .blocked s2 ∧ s2.consecutiveErrCnt = 1) := by
  refine ⟨⟨_, rfl, by decide⟩, rfl, ⟨_, rfl, by decide⟩⟩

/-- C5, amended: when a UI run ends with `ErrOpenEditor` and the editor
returns content, `mainLoop` makes one teardown and one recreation: the old
run has returned (after its deferred `g.Close()` if it had a Gui) before
`editor.Open` is called, the only calls after it are `editor.Open` and
`Update` on the active conflict, and the loop goes on to its next pass, which
starts the new UI run by calling `gocui.NewGui`. At that point `cur` and
`conflicts` are what they were when the old run ended; `consecutiveErrCnt`
is the same when the update succeeded and one more when it failed. -/
theorem editor_handoff (r : Round) (rs : List Round) (s s1 : State) (c : Handle)
    (newLines : List String) (h : runUI r s = .ok (some .ErrOpenEditor) s1)
    (hc : s1.active = some c) (ho : r.editorOpen = (newLines, none)) :
    ∃ s2, mainLoop (r :: rs) s = mainLoop rs s2 ∧
      s1.trace.getLast? = some (.runUIReturned (some .ErrOpenEditor)) ∧
      (r.newGui = none →
        ∃ t, s1.trace = t ++ [.guiClose, .runUIReturned (some .ErrOpenEditor)]) ∧
      s2.trace = s1.trace ++ [.editorOpen c, .update c newLines] ∧
      s2.cur = s1.cur ∧ s2.conflicts = s1.conflicts ∧
      (r.update = none → s2.consecutiveErrCnt = s1.consecutiveErrCnt) ∧
      (∀ e, r.update = some e → s2.consecutiveErrCnt = s1.consecutiveErrCnt + 1) ∧
      (∀ r2 rs2, rs = r2 :: rs2 →
        ∃ t, (mainLoop rs s2).state.trace = s2.trace ++ .newGui r2.newGui :: t) := by
  refine ⟨_, mainLoop_editor_update r rs s s1 c newLines h hc ho, runUI_last r s s1 _ h,
    fun hg => runUI_closes r s s1 _ h hg, rfl, rfl, rfl, ?_, ?_, ?_⟩
  · intro hu; simp [hu]
  · intro e hu; simp [hu]
  · intro r2 rs2 hrs
    subst hrs
    exact mainLoop_head r2 rs2 _

/-- C5 amended, at a concrete input: one conflict, the user asks for the
editor, the update succeeds, and the next pass ends with Ctrl+C. -/
theorem editor_handoff_witness :
    ∃ s2, mainLoop [okRound [.enter "e" editorReply], quitRound] oneConflict
        = mainLoop [quitRound] s2 ∧
      ([.newGui none, .select ⟨0, 0⟩ false, .clearInput, .evaluate ⟨0, 0⟩ "e",
          .guiClose, .runUIReturned (some .ErrOpenEditor)] : List Event).getLast?
        = some (.runUIReturned (some .ErrOpenEditor)) ∧
      ((okRound [.enter "e" editorReply]).newGui = none →
        ∃ t, [.newGui none, .select ⟨0, 0⟩ false, .clearInput, .evaluate ⟨0, 0⟩ "e",
          .guiClose, .runUIReturned (some .ErrOpenEditor)]
          = t ++ [Event.guiClose, .runUIReturned (some .ErrOpenEditor)]) ∧
      s2.trace = [.newGui none, .select ⟨0, 0⟩ false, .clearInput, .evaluate ⟨0, 0⟩ "e",
          .guiClose, .runUIReturned (some .ErrOpenEditor)] ++
        [.editorOpen ⟨0, 0⟩, .update ⟨0, 0⟩ ["resolved"]] ∧
      s2.cur = 0 ∧ s2.conflicts = [⟨0, 0⟩] ∧
      ((okRound [.enter "e" editorReply]).update = none → s2.consecutiveErrCnt = 0) ∧
      (∀ e, (okRound [.enter "e" editorReply]).update = some e →
        s2.consecutiveErrCnt = 0 + 1) ∧
      (∀ r2 rs2, [quitRound] = r2 :: rs2 →
        ∃ t, (mainLoop [quitRound] s2).state.trace = s2.trace ++ .newGui r2.newGui :: t) :=
  editor_handoff (okRound [.enter "e" editorReply]) [quitRound] oneConflict
    { oneConflict with cur := 0, trace :=
      [.newGui none, .select ⟨0, 0⟩ false, .clearInput, .evaluate ⟨0, 0⟩ "e",
        .guiClose, .runUIReturned (some .ErrOpenEditor)] }
    ⟨0, 0⟩ ["resolved"] (by decide) (by decide) rfl

/-! ## Claims about findConflicts and main -/

/-- C10: when `os.Getwd` and the finder succeed, `findConflicts` returns the
files and appends to the registry one pointer per conflict of every file, in
the order of discovery: the conflicts the appended pointers point to are the
concatenation of the conflict lists of the files, their number is the sum of
the conflict counts, and the pointer to conflict `j` of file `i` is at the
position (number of conflicts in the files before `i`) + `j`. When
`os.Getwd` or the finder fails, the error is returned and the state, the
registry included, is unchanged. -/
theorem findConflicts_registry (env : Env) (s : State) :
    (∀ cwd files, env.getwd = (cwd, none) → env.find cwd = (files, none) →
      ∃ added, findConflicts env s = (files, none, { s with conflicts := s.conflicts ++ added }) ∧
        added.map (deref files) = (files.flatMap fun f => f.Conflicts).map some ∧
        added.length = (files.map fun f => f.Conflicts.length).sum ∧
        ∀ i j f, files[i]? = some f → j < f.Conflicts.length →
          added[conflictsBefore files i + j]? = some ⟨i, j⟩) ∧
    (∀ cwd e, env.getwd = (cwd, some e) → findConflicts env s = ([], some e, s)) ∧
    (∀ cwd files e, env.getwd = (cwd, none) → env.find cwd = (files, some e) →
      findConflicts env s = (files, some e, s)) := by
  refine ⟨?_, ?_, ?_⟩
  · intro cwd files hwd hf
    refine ⟨handlesFrom 0 files, findConflicts_ok env s cwd files hwd hf, ?_,
      handlesFrom_length files 0, ?_⟩
    · exact handlesFrom_deref files []
    · intro i j f hi hj
      have := handlesFrom_getElem files 0 i j f hi hj
      simpa using this
  · intro cwd e hwd
    simp [findConflicts, hwd]
  · intro cwd files e hwd hf
    simp [findConflicts, hwd, hf]

/-- C10 at a concrete input: two files with two conflicts and one conflict
give the registry of `demoFound`. -/
theorem findConflicts_registry_witness :
    ∃ added, findConflicts (demoEnv twoFiles [] fun _ => none) State.init
        = (twoFiles, none, { State.init with conflicts := State.init.conflicts ++ added }) ∧
      added.map (deref twoFiles) = (twoFiles.flatMap fun f => f.Conflicts).map some ∧
      added.length = (twoFiles.map fun f => f.Conflicts.length).sum ∧
      ∀ i j f, twoFiles[i]? = some f → j < f.Conflicts.length →
        added[conflictsBefore twoFiles i + j]? = some ⟨i, j⟩ :=
  (findConflicts_registry (demoEnv twoFiles [] fun _ => none) State.init).1
    "/repo" twoFiles rfl rfl

/-- C8: if the settings load and the finder succeeds but no file has a
conflict (no files at all, or only files with empty conflict lists), `main`
prints the green notice and exits with status 0. That line is the only
logged call: no Gui is created, so neither `mainLoop` nor `runUI` ran, no
selection of `conflicts[cur]` is made, and no file is written back; the
result does not depend on what a UI would have answered. -/
theorem no_conflicts_exit_zero (env : Env) (cwd : String) (files : List File)
    (hl : env.loadSettings.2 = none) (hwd : env.getwd = (cwd, none))
    (hf : env.find cwd = (files, none)) (hz : ∀ f ∈ files, f.Conflicts = []) :
    main env = .exited 0
      { State.init with binding := env.loadSettings.1, trace := [.println .noConflicts] } := by
  have hh : ∀ (fs : List File) (i : Nat), (∀ f ∈ fs, f.Conflicts = []) → handlesFrom i fs = [] := by
    intro fs
    induction fs with
    | nil => intro i _; rfl
    | cons g gs ih =>
      intro i h
      have hg : g.Conflicts = [] := h g (List.mem_cons_self _ _)
      simp [handlesFrom, fileHandles, hg, ih (i + 1) (fun f hf => h f (List.mem_cons_of_mem _ hf))]
  have hfc := findConflicts_ok env { State.init with binding := env.loadSettings.1 } cwd files hwd hf
  simp only [main, hl, hfc]
  simp [hh files 0 hz, State.init, State.emit]

/-- C8 at a concrete input: one file without conflicts, and a UI script that
is never looked at. -/
theorem no_conflicts_exit_zero_witness :
    main (demoEnv [⟨"a.txt", []⟩] [quitRound] fun _ => none) = .exited 0
      { State.init with
        binding := (demoEnv [⟨"a.txt", []⟩] [quitRound] fun _ => none).loadSettings.1,
        trace := [.println .noConflicts] } :=
  no_conflicts_exit_zero (demoEnv [⟨"a.txt", []⟩] [quitRound] fun _ => none) "/repo"
    [⟨"a.txt", []⟩] rfl rfl rfl (by decide)

/-- C7: in the write loop of `main`, reached after the session returned nil,
let the write-back succeed for the files before position `k` (counted from
0) and fail for the file at position `k`. Then WriteChanges is called once
for each of the files 0 to `k`, in order, and for no later file; the files
before `k` are the ones written; no write-back was called before the loop;
the summary is not printed; and the process ends through `die`: the red
line with the error, exit status 1. -/
theorem write_failure_aborts (env : Env) (files : List File) (s1 s2 : State) (k : Nat)
    (e : Err) (hl : env.loadSettings.2 = none)
    (hfc : findConflicts env (boot env) = (files, none, s1)) (hne : s1.conflicts ≠ [])
    (hml : mainLoop env.rounds s1 = .ok none s2) (hk : k < files.length)
    (hok : ∀ i < k, env.writeChanges i = none) (hfail : env.writeChanges k = some e) :
    ∃ s3, main env = .exited 1 s3 ∧
      s3.trace = s2.trace ++ (List.range (k + 1)).map .writeChanges ++ [.println (.red e)] ∧
      s3.written = List.range k ∧
      (∀ ev ∈ s2.trace, isFinalizerEvent ev = false) ∧
      (∀ cs, Event.printSummary cs ∉ s3.trace) := by
  have hext : Extends s1 s2 := by
    have := mainLoop_extends env.rounds s1
    rwa [hml] at this
  obtain ⟨-, -, hlog⟩ := session_log env files s1 hfc
  obtain ⟨hw2, -, hses⟩ := hlog s2 hext
  have hwl := writeLoop_fails env e files 0 k s2 hk (by simpa using hok) (by simpa using hfail)
  have hnf : ∀ ev ∈ s2.trace, isFinalizerEvent ev = false :=
    fun ev hev => session_not_finalizer ev (hses ev hev)
  have hm : main env = .exited 1
      { s2 with
        trace := s2.trace ++ (List.range' 0 (k + 1)).map .writeChanges ++ [.println (.red e)],
        written := s2.written ++ List.range' 0 k } := by
    rw [main_session env files s1 hl hfc hne, hml]
    simp only [hwl, die, State.emit]
  refine ⟨_, hm, ?_, ?_, hnf, ?_⟩
  · simp [State.emit, List.range_eq_range']
  · simp [State.emit, hw2, List.range_eq_range']
  · intro cs hcs
    simp only [State.emit, List.mem_append, List.mem_map, List.mem_singleton] at hcs
    rcases hcs with (hcs | ⟨i, -, hi⟩) | hcs
    · have := hnf _ hcs
      simp [isFinalizerEvent] at this
    · cases hi
    · cases hcs

/-- C7 at a concrete input: two files, the session ends with Ctrl+C, the
first write-back succeeds and the second fails. -/
theorem write_failure_aborts_witness :
    ∃ s3, main (demoEnv twoFiles [quitRound] secondWriteFails) = .exited 1 s3 ∧
      s3.trace = demoQuit.trace ++ (List.range (1 + 1)).map .writeChanges ++
        [.println (.red (.other "disk full"))] ∧
      s3.written = List.range 1 ∧
      (∀ ev ∈ demoQuit.trace, isFinalizerEvent ev = false) ∧
      (∀ cs, Event.printSummary cs ∉ s3.trace) :=
  write_failure_aborts (demoEnv twoFiles [quitRound] secondWriteFails) twoFiles demoFound
    demoQuit 1 (.other "disk full") rfl rfl (by decide) (by decide) (by decide) (by decide) rfl

/-- C9: the end of `main` (write-back and summary) runs only after the
session loop ended with the quit signal. (1) When `mainLoop` returns nil,
the last thing that happened is a UI run returning `gocui.ErrQuit`. (2) If
`main` calls WriteChanges or PrintSummary at all, then the search for
conflicts succeeded and `mainLoop` returned nil. (3) When `mainLoop` returns
an error, that error is the error of a failed `editor.Open`, which was the
last call of the session; `main` then ends through `die` with exit status 1
and has called neither WriteChanges nor PrintSummary. (4) When `mainLoop`
returns nil and every write-back succeeds, `main` ends with status 0 and
PrintSummary is called once, as the last call, after the write-back of every
file in order; nothing of the kind was called before. -/
theorem finalizer_only_after_quit (env : Env) :
    (∀ rounds s s2, mainLoop rounds s = .ok none s2 →
      s2.trace.getLast? = some (.runUIReturned (some .ErrQuit))) ∧
    ((∃ ev ∈ (main env).state.trace, isFinalizerEvent ev = true) →
      ∃ files s1 s2, findConflicts env (boot env) = (files, none, s1) ∧
        mainLoop env.rounds s1 = .ok none s2) ∧
    (∀ files s1 e s2, env.loadSettings.2 = none →
      findConflicts env (boot env) = (files, none, s1) → s1.conflicts ≠ [] →
      mainLoop env.rounds s1 = .ok (some e) s2 →
      main env = .exited 1 (s2.emit (.println (.red e))) ∧
        (∃ c, s2.trace.getLast? = some (.editorOpen c)) ∧
        (∃ r ∈ env.rounds, r.editorOpen.2 = some e) ∧
        ∀ ev ∈ (main env).state.trace, isFinalizerEvent ev = false) ∧
    (∀ files s1 s2, env.loadSettings.2 = none →
      findConflicts env (boot env) = (files, none, s1) → s1.conflicts ≠ [] →
      mainLoop env.rounds s1 = .ok none s2 →
      (∀ i < files.length, env.writeChanges i = none) →
      ∃ s3, main env = .exited 0 s3 ∧
        s3.trace = s2.trace ++ (List.range files.length).map .writeChanges ++
          [.printSummary s1.conflicts] ∧
        s3.written = List.range files.length ∧
        ∀ ev ∈ s2.trace, isFinalizerEvent ev = false) := by
  have hprint : ∀ (tr : List Event) (m : Msg), (∀ ev ∈ tr, isSessionEvent ev = true) →
      ∀ ev ∈ tr ++ [.println m], isFinalizerEvent ev = false := by
    intro tr m h ev hev
    rcases List.mem_append.mp hev with h1 | h1
    · exact session_not_finalizer ev (h ev h1)
    · simp only [List.mem_singleton] at h1
      subst h1; rfl
  refine ⟨fun rounds s s2 h => mainLoop_nil_last rounds s s2 h, ?_, ?_, ?_⟩
  · rintro ⟨ev, hev, hfin⟩
    rcases hl : env.loadSettings.2 with _ | e0
    · rcases hfc : findConflicts env (boot env) with ⟨files, _ | e1, s1⟩
      · obtain ⟨ht1, -, hlog⟩ := session_log env files s1 hfc
        by_cases hne : s1.conflicts = []
        · exfalso
          have hfc2 : findConflicts env { State.init with binding := env.loadSettings.1 }
              = (files, none, s1) := hfc
          have hm : main env = .exited 0 (s1.emit (.println .noConflicts)) := by
            simp only [main, hl, hfc2, hne, List.length_nil, if_true]
          rw [hm] at hev
          have := hprint s1.trace .noConflicts (by rw [ht1]; simp) ev hev
          rw [this] at hfin
          cases hfin
        · rcases hml : mainLoop env.rounds s1 with ⟨_ | e2, s2⟩ | s2 | s2
          · exact ⟨files, s1, s2, rfl, hml⟩
          all_goals
            exfalso
            have hext : Extends s1 s2 := by
              have := mainLoop_extends env.rounds s1
              rwa [hml] at this
            obtain ⟨-, -, hses⟩ := hlog s2 hext
            rw [main_session env files s1 hl hfc hne, hml] at hev
            first
              | have := hprint s2.trace _ hses ev hev
                rw [this] at hfin
                cases hfin
              | have := session_not_finalizer ev (hses ev hev)
                rw [this] at hfin
                cases hfin
      · exfalso
        have hfr := findConflicts_frame env (boot env)
        rw [hfc] at hfr
        have ht1 : s1.trace = [] := hfr.1
        have hfc2 : findConflicts env { State.init with binding := env.loadSettings.1 }
            = (files, some e1, s1) := hfc
        have hm : main env = die e1 s1 := by
          simp only [main, hl, hfc2]
        rw [hm] at hev
        have := hprint s1.trace (.red e1) (by rw [ht1]; simp) ev hev
        rw [this] at hfin
        cases hfin
    · exfalso
      have hm : main env = die e0 { State.init with binding := env.loadSettings.1 } := by
        simp only [main, hl]
      rw [hm] at hev
      have := hprint [] (.red e0) (by simp) ev hev
      rw [this] at hfin
      cases hfin
  · intro files s1 e s2 hl hfc hne hml
    have hext : Extends s1 s2 := by
      have := mainLoop_extends env.rounds s1
      rwa [hml] at this
    obtain ⟨-, -, hlog⟩ := session_log env files s1 hfc
    obtain ⟨-, -, hses⟩ := hlog s2 hext
    obtain ⟨hlast, hed⟩ := mainLoop_err_last env.rounds s1 s2 e hml
    have hm : main env = .exited 1 (s2.emit (.println (.red e))) := by
      rw [main_session env files s1 hl hfc hne, hml]
      rfl
    refine ⟨hm, hlast, hed, ?_⟩
    rw [hm]
    exact hprint s2.trace (.red e) hses
  · intro files s1 s2 hl hfc hne hml hok
    have hext : Extends s1 s2 := by
      have := mainLoop_extends env.rounds s1
      rwa [hml] at this
    obtain ⟨-, -, hlog⟩ := session_log env files s1 hfc
    obtain ⟨hw2, hc2, hses⟩ := hlog s2 hext
    have hwl := writeLoop_succeeds env files 0 s2 (by simpa using hok)
    have hm : main env = .exited 0
        { s2 with
          trace := s2.trace ++ (List.range' 0 files.length).map .writeChanges ++
            [.printSummary s2.conflicts],
          written := s2.written ++ List.range' 0 files.length } := by
      rw [main_session env files s1 hl hfc hne, hml]
      simp only [hwl, PrintSummary, State.emit]
    refine ⟨_, hm, ?_, ?_, fun ev hev => session_not_finalizer ev (hses ev hev)⟩
    · simp [List.range_eq_range', hc2]
    · simp [List.range_eq_range', hw2]

/-- C9 at a concrete input: two files with three conflicts, the session ends
with Ctrl+C and both write-backs succeed. -/
theorem finalizer_only_after_quit_witness :
    ∃ s3, main (demoEnv twoFiles [quitRound] fun _ => none) = .exited 0 s3 ∧
      s3.trace = demoQuit.trace ++ (List.range twoFiles.length).map .writeChanges ++
        [.printSummary demoFound.conflicts] ∧
      s3.written = List.range twoFiles.length ∧
      ∀ ev ∈ demoQuit.trace, isFinalizerEvent ev = false :=
  (finalizer_only_after_quit (demoEnv twoFiles [quitRound] fun _ => none)).2.2.2
    twoFiles demoFound demoQuit rfl rfl (by decide) (by decide) (by decide)

end Fac
